import Mathlib

/-!
Verification development for the repository-content analysis pipeline of
`portfolio-backend` (TypeScript).  The definitions below are shallow
embeddings of the source functions, translated statement by statement:

* `relevantFilter`        — the `relevantFiles` filter, `src/routes/github-api.ts` (lines 1668-1943)
* `analyzeBranchLanguages`— `src/services/resume-service.ts` (lines 2118-2315)
* `analyzeTechStackFromFiles` — `src/services/ai-summary-service.ts` (lines 813-1017)
* `determineProjectType` / `analyzeProjectStructure` — same file (lines 595-808)
* `processSection` / `parseAiResponse` — same file (lines 1193-1663)
* `saveRepositorySummary` — same file (lines 245-350)
* `getRepositoryCommits`, `getRepositoryContents`, `getRepositoryReadme`
  (`src/services/repository-service.ts`) and `getRepositoryTree`
  (`src/services/resume-service.ts` lines 1915-1969)

JavaScript strings are modelled by Lean `String`; the handful of
`String.prototype` operations the source uses are re-implemented on
character lists so they compute by kernel reduction.
-/

set_option autoImplicit false

namespace PortfolioBackend

/-- `pat` is an initial segment of `l`. -/
def charsPrefix : List Char → List Char → Bool
  | [], _ => true
  | _ :: _, [] => false
  | a :: as, b :: bs => a == b && charsPrefix as bs

/-- `pat` occurs contiguously inside `l`. -/
def charsInfix (pat : List Char) : List Char → Bool
  | [] => pat.isEmpty
  | b :: bs => charsPrefix pat (b :: bs) || charsInfix pat bs

/-- JavaScript `String.prototype.includes(pat)`: `pat` occurs as a contiguous
substring of `s`.  All the regular expressions of the source that are used as
plain unanchored literals (for example `/node_modules\//`) reduce to this. -/
def jsIncludes (s pat : String) : Bool :=
  charsInfix pat.toList s.toList

/-- JavaScript `String.prototype.startsWith(pat)`. -/
def jsStartsWith (s pat : String) : Bool :=
  charsPrefix pat.toList s.toList

/-- JavaScript `String.prototype.toLowerCase()`, for the ASCII range used by
the analyzed paths and headings (non-ASCII characters are unaffected). -/
def jsToLower (s : String) : String :=
  String.mk (s.toList.map Char.toLower)

/-- Whitespace in the sense of the JavaScript regex class `\s` and of
`String.prototype.trim`, restricted to the characters that occur here. -/
def jsIsSpace (c : Char) : Bool :=
  c == ' ' || c == '\t' || c == '\n' || c == '\r'

/-- JavaScript `String.prototype.trim()`. -/
def jsTrim (s : String) : String :=
  String.mk (((s.toList.dropWhile jsIsSpace).reverse.dropWhile jsIsSpace).reverse)

/-- Auxiliary loop for `jsSplitOnChar`. -/
def splitOnCharAux (c : Char) : List Char → List Char → List String
  | [], acc => [String.mk acc.reverse]
  | x :: xs, acc =>
    if x == c then String.mk acc.reverse :: splitOnCharAux c xs []
    else splitOnCharAux c xs (x :: acc)

/-- JavaScript `String.prototype.split(sep)` for a one-character separator
(`"."`, `"/"`, `"\n"`, `" "`, `","` are the separators the source uses);
empty pieces are kept, exactly as in JavaScript. -/
def jsSplitOnChar (c : Char) (s : String) : List String :=
  splitOnCharAux c s.toList []

/-- JavaScript `Array.prototype.pop()` on the result of a split (a split
result is never the empty array, so `pop` returns its last element). -/
def jsLast (l : List String) : String :=
  l.getLastD ""

/-! ## PathClassifier — the `relevantFiles` filter (github-api.ts 1668-1943) -/

/-- One entry of a GitHub tree listing: `{ type, path }` with
`type ∈ {"blob", "tree"}`. -/
structure TreeItem where
  type : String
  path : String
deriving Repr, DecidableEq

/-- `excludeLibraryPatterns` (github-api.ts 1674-1781).  Each source regex is
an unanchored literal `/dir\//`, i.e. the test "path contains `dir/`";
the list keeps the source's order and its duplicates. -/
def excludeLibraryPatterns : List String :=
  [ "node_modules/", ".npm/", ".yarn/", "bower_components/",
    "venv/", "env/", ".venv/", ".env/", "__pycache__/", ".pytest_cache/",
    "site-packages/", "dist-packages/", ".tox/",
    "target/", ".gradle/", "gradle/", ".m2/", "build/", "out/", "classes/",
    "bin/", "obj/", "packages/", ".nuget/",
    "vendor/", ".bundle/", "gems/",
    "vendor/", "composer/",
    "vendor/", ".mod/",
    "target/", ".cargo/",
    ".build/", "packages/", ".swiftpm/",
    ".dart_tool/", ".pub/", "build/",
    "pods/", ".cocoapods/", "carthage/", "derived_data/",
    ".gradle/", "build/", ".android/",
    "dist/", "build/", "output/", "release/", "debug/", "coverage/",
    ".next/", ".nuxt/", ".output/", ".vercel/", ".netlify/",
    ".cache/", ".tmp/", "temp/", "tmp/", ".temp/",
    ".git/", ".svn/", ".hg/",
    ".vscode/", ".idea/", ".eclipse/", ".settings/", ".project/", ".classpath/",
    "logs/", ".log/" ]

/-- `excludeExtensions` (github-api.ts 1784-1903). -/
def excludeExtensions : List String :=
  [ "jpg", "jpeg", "png", "gif", "bmp", "svg", "ico", "webp", "tiff", "tif",
    "raw", "psd", "ai", "eps", "indd", "sketch",
    "mp4", "avi", "mov", "wmv", "flv", "webm", "mkv", "m4v", "3gp", "mpg",
    "mpeg", "ogv", "asf", "rm", "rmvb",
    "mp3", "wav", "flac", "aac", "ogg", "wma", "m4a", "opus", "aiff",
    "ttf", "woff", "woff2", "eot", "otf", "fon",
    "zip", "rar", "7z", "tar", "gz", "bz2", "xz", "lz", "lzma", "cab", "iso",
    "dmg", "pkg", "deb", "rpm",
    "exe", "dll", "so", "dylib", "app", "deb", "rpm", "msi", "bin", "dat",
    "db", "sqlite", "sqlite3",
    "pdf", "doc", "docx", "xls", "xlsx", "ppt", "pptx", "odt", "ods", "odp",
    "rtf",
    "class", "jar", "war", "ear", "pyc", "pyo", "o", "obj", "lib", "a", "la",
    "lo", "slo", "ko", "mod",
    "lock" ]

/-- `excludeFileNames` (github-api.ts 1920-1932). -/
def excludeFileNames : List String :=
  [ "package-lock.json", "yarn.lock", "composer.lock", "gemfile.lock",
    "pipfile.lock", "poetry.lock", "cargo.lock", "go.sum", ".ds_store",
    "thumbs.db", "desktop.ini" ]

/-- The filter body of `relevantFiles` (github-api.ts 1668-1943): non-blob
entries are dropped, then directory-pattern exclusion, then extension
exclusion, then filename exclusion, first match short-circuiting. -/
def relevantFilter (item : TreeItem) : Bool :=
  if item.type != "blob" then false
  else
    let path := jsToLower item.path
    if excludeLibraryPatterns.any (fun pat => jsIncludes path pat) then false
    else
      let extension := jsLast (jsSplitOnChar '.' path)
      if extension != "" && excludeExtensions.contains extension then false
      else
        let fileName := jsLast (jsSplitOnChar '/' path)
        if excludeFileNames.any (fun name =>
            jsIncludes (jsToLower fileName) (jsToLower name)) then false
        else true

/-! ## BranchLanguageAnalyzer — `analyzeBranchLanguages` (resume-service.ts 2118-2315) -/

/-- `languageMapping` (resume-service.ts 2142-2248): the static
extension → language table. -/
def languageMapping : List (String × String) :=
  [ ("js", "JavaScript"), ("jsx", "JavaScript"), ("ts", "TypeScript"),
    ("tsx", "TypeScript"), ("mjs", "JavaScript"), ("cjs", "JavaScript"),
    ("py", "Python"), ("pyw", "Python"), ("pyi", "Python"),
    ("java", "Java"), ("class", "Java"), ("jar", "Java"),
    ("c", "C"), ("cpp", "C++"), ("cxx", "C++"), ("cc", "C++"), ("h", "C"),
    ("hpp", "C++"), ("hxx", "C++"),
    ("cs", "C#"), ("go", "Go"), ("rs", "Rust"),
    ("php", "PHP"), ("phtml", "PHP"), ("rb", "Ruby"), ("rbw", "Ruby"),
    ("swift", "Swift"), ("kt", "Kotlin"), ("kts", "Kotlin"), ("dart", "Dart"),
    ("html", "HTML"), ("htm", "HTML"), ("css", "CSS"), ("scss", "SCSS"),
    ("sass", "Sass"), ("less", "Less"), ("vue", "Vue"), ("svelte", "Svelte"),
    ("sh", "Shell"), ("bash", "Shell"), ("zsh", "Shell"), ("fish", "Shell"),
    ("json", "JSON"), ("xml", "XML"), ("yaml", "YAML"), ("yml", "YAML"),
    ("toml", "TOML"), ("ini", "INI"), ("env", "Environment"),
    ("md", "Markdown"), ("mdx", "MDX"), ("rst", "reStructuredText"),
    ("txt", "Text"), ("sql", "SQL"), ("dockerfile", "Dockerfile"),
    ("r", "R"), ("scala", "Scala"), ("clj", "Clojure"), ("ex", "Elixir"),
    ("exs", "Elixir"), ("erl", "Erlang"), ("hrl", "Erlang"), ("lua", "Lua"),
    ("pl", "Perl"), ("pm", "Perl"), ("vim", "Vim Script"),
    ("asm", "Assembly"), ("s", "Assembly") ]

/-- The extension assignment of resume-service.ts 2253-2262: lower-case the
path, special-case `dockerfile` / `dockerfile.*`, otherwise take the part
after the last `"."` when the path contains one, otherwise `""`. -/
def extensionOf (path : String) : String :=
  let fileName := jsToLower path
  if fileName == "dockerfile" || jsStartsWith fileName "dockerfile." then
    "dockerfile"
  else if jsIncludes fileName "." then jsLast (jsSplitOnChar '.' fileName)
  else ""

/-- `String(Object)` in V8: the value inherited through
`languageMapping["constructor"]`, as the string under which
`filesByExtension[language]` files the path. -/
def inheritedConstructorValue : String :=
  "function Object() \x7b [native code] \x7d"

/-- `String(Object.prototype)`: the value inherited through
`languageMapping["__proto__"]`, as the string under which
`filesByExtension[language]` files the path. -/
def inheritedProtoValue : String :=
  "[object Object]"

/-- `if (extension && languageMapping[extension])` (resume-service.ts 2264):
the language a blob path is tallied under, when any.  The read
`languageMapping[extension]` is a JavaScript property access on an object
literal, so after the table's own keys it consults `Object.prototype`.  The
extension has been lower-cased, and the only all-lowercase inherited
property names are `"constructor"` (value: the `Object` constructor
function) and `"__proto__"` (value: `Object.prototype`); both are truthy,
and the grouping key `filesByExtension[language]` stringifies them to
`inheritedConstructorValue` / `inheritedProtoValue`.  Every other inherited
name (`"toString"`, `"valueOf"`, `"hasOwnProperty"`, …) contains an
upper-case letter and can never be hit. -/
def langOf (path : String) : Option String :=
  let extension := extensionOf path
  if extension != "" then
    if (languageMapping.lookup extension).isSome then
      languageMapping.lookup extension
    else if extension == "constructor" then some inheritedConstructorValue
    else if extension == "__proto__" then some inheritedProtoValue
    else none
  else none

/-- `Math.round((count / totalFiles) * 100)` of resume-service.ts 2279-2280
with the guard `totalFiles > 0`, as exact rational rounding half-up:
`⌊100·count/totalFiles + 1/2⌋ = (200·count + totalFiles) / (2·totalFiles)`. -/
def roundPct (count totalFiles : Nat) : Nat :=
  if totalFiles > 0 then (200 * count + totalFiles) / (2 * totalFiles) else 0

/-- Key order of a JavaScript object built by insertion: first occurrences,
in order.  Used for the dictionaries the source accumulates. -/
def firstDedup (l : List String) : List String :=
  l.foldl (fun acc a => if a ∈ acc then acc else acc ++ [a]) []

/-- Result record of `analyzeBranchLanguages`: `languages` maps a language to
`(count, percentage)`; `filesByExtension` maps a language to its paths. -/
structure BranchLanguageAnalysis where
  languages : List (String × Nat × Nat)
  totalFiles : Nat
  filesByExtension : List (String × List String)
deriving Repr, DecidableEq

/-- `const blobFiles = tree.filter((item) => item.type === "blob")`
(resume-service.ts 2251). -/
def blobFilesOf (tree : List TreeItem) : List TreeItem :=
  tree.filter (fun item => item.type == "blob")

/-- The `(language, path)` pairs produced by the classification loop of
resume-service.ts 2253-2271: each blob file whose `langOf` is recognized,
paired with its language, in tree order. -/
def recognizedOf (tree : List TreeItem) : List (String × String) :=
  (blobFilesOf tree).filterMap
    (fun f => (langOf f.path).map (fun l => (l, f.path)))

/-- The pure tally of `analyzeBranchLanguages` (resume-service.ts 2140-2303)
on an already-fetched tree: keep the blob entries, classify each through
`langOf`, group the recognized paths by language in first-appearance order
(the `filesByExtension` dictionary), and report `(count, percentage)` per
language with `totalFiles = number of blob entries`. -/
def analyzeBranchLanguages (tree : List TreeItem) : BranchLanguageAnalysis :=
  let keys := firstDedup ((recognizedOf tree).map Prod.fst)
  let filesByExtension := keys.map (fun l =>
    (l, ((recognizedOf tree).filter (fun p => p.fst == l)).map Prod.snd))
  let totalFiles := (blobFilesOf tree).length
  let languages := filesByExtension.map (fun p =>
    (p.fst, p.snd.length, roundPct p.snd.length totalFiles))
  { languages := languages, totalFiles := totalFiles,
    filesByExtension := filesByExtension }

/-! ## Generic lemmas about the helper functions -/

theorem mem_foldl_dedup (l acc : List String) (x : String) :
    x ∈ l.foldl (fun acc a => if a ∈ acc then acc else acc ++ [a]) acc ↔
      x ∈ acc ∨ x ∈ l := by
  induction l generalizing acc with
  | nil => simp
  | cons a l ih =>
    simp only [List.foldl_cons]
    rw [ih]
    by_cases h : a ∈ acc
    · simp only [if_pos h]
      constructor
      · rintro (hx | hx)
        · exact Or.inl hx
        · exact Or.inr (List.mem_cons_of_mem _ hx)
      · rintro (hx | hx)
        · exact Or.inl hx
        · rcases List.mem_cons.mp hx with rfl | hx
          · exact Or.inl h
          · exact Or.inr hx
    · simp only [if_neg h, List.mem_append, List.mem_singleton, List.mem_cons]
      tauto

theorem mem_firstDedup (l : List String) (x : String) :
    x ∈ firstDedup l ↔ x ∈ l := by
  unfold firstDedup
  rw [mem_foldl_dedup]
  simp

theorem nodup_foldl_dedup (l : List String) (acc : List String)
    (hacc : acc.Nodup) :
    (l.foldl (fun acc a => if a ∈ acc then acc else acc ++ [a]) acc).Nodup := by
  induction l generalizing acc with
  | nil => simpa
  | cons a l ih =>
    simp only [List.foldl_cons]
    apply ih
    by_cases h : a ∈ acc
    · simpa [h]
    · simp [h, List.nodup_append, hacc]

theorem nodup_firstDedup (l : List String) : (firstDedup l).Nodup :=
  nodup_foldl_dedup l [] List.nodup_nil

theorem firstDedup_perm_dedup (l : List String) :
    List.Perm (firstDedup l) l.dedup := by
  rw [List.perm_ext_iff_of_nodup (nodup_firstDedup l) l.nodup_dedup]
  intro a
  rw [mem_firstDedup, List.mem_dedup]

theorem sum_count_firstDedup (l : List String) :
    ((firstDedup l).map (fun x => l.count x)).sum = l.length := by
  have h := ((firstDedup_perm_dedup l).map (fun x => l.count x)).sum_eq
  rw [h, List.sum_map_count_dedup_eq_length]

/-- Claim C8: any tree entry whose (lower-cased) path contains one of the
recognized vendor/dependency directory segments, or whose extension is in the
binary/media exclusion list, is rejected by the `relevantFiles` filter,
regardless of any other property of the path. -/
theorem relevantFilter_excludes (item : TreeItem)
    (h : excludeLibraryPatterns.any
          (fun pat => jsIncludes (jsToLower item.path) pat) = true
       ∨ jsLast (jsSplitOnChar '.' (jsToLower item.path)) ∈ excludeExtensions) :
    relevantFilter item = false := by
  unfold relevantFilter
  split
  · rfl
  · rcases h with h | h
    · simp [h]
    · by_cases hdir : excludeLibraryPatterns.any
          (fun pat => jsIncludes (jsToLower item.path) pat) = true
      · simp [hdir]
      · have hne : jsLast (jsSplitOnChar '.' (jsToLower item.path)) ≠ "" := by
          intro he
          rw [he] at h
          exact absurd h (by decide)
        simp [hdir, hne, h, List.elem_iff.mpr h]

/-- Witness for C8 at the concrete path `node_modules/react/index.js`. -/
theorem relevantFilter_excludes_witness :
    (excludeLibraryPatterns.any
        (fun pat => jsIncludes (jsToLower "node_modules/react/index.js") pat) = true
      ∨ jsLast (jsSplitOnChar '.' (jsToLower "node_modules/react/index.js"))
          ∈ excludeExtensions)
    ∧ relevantFilter { type := "blob", path := "node_modules/react/index.js" } = false :=
  ⟨Or.inl (by decide),
   relevantFilter_excludes { type := "blob", path := "node_modules/react/index.js" }
     (Or.inl (by decide))⟩

/-- A key absent from an association list looks up to `none`. -/
theorem lookup_eq_none_of_not_mem_keys {l : List (String × String)} {k : String}
    (h : k ∉ l.map Prod.fst) : l.lookup k = none := by
  induction l with
  | nil => rfl
  | cons p t ih =>
    have hk : (k == p.fst) = false := by
      apply beq_false_of_ne
      intro he
      exact h (List.mem_map.mpr ⟨p, List.mem_cons_self p t, he.symm⟩)
    rw [List.lookup, hk]
    exact ih (fun hm => h (by
      rcases List.mem_map.mp hm with ⟨q, hq, hqe⟩
      exact List.mem_map.mpr ⟨q, List.mem_cons_of_mem _ hq, hqe⟩))

/-- A blob path is assigned to no language exactly when its extension is
absent from the table and is neither of the two reachable
`Object.prototype` names. -/
theorem langOf_eq_none {path : String}
    (h1 : extensionOf path ∉ languageMapping.map Prod.fst)
    (h2 : extensionOf path ≠ "constructor")
    (h3 : extensionOf path ≠ "__proto__") : langOf path = none := by
  simp only [langOf]
  split
  · rw [lookup_eq_none_of_not_mem_keys h1]
    simp [beq_false_of_ne h2, beq_false_of_ne h3]
  · rfl

/-- The grouped path-list for language `l` has as many entries as `l` has
occurrences among the recognized files. -/
theorem group_length_eq_count (tree : List TreeItem) (l : String) :
    (((recognizedOf tree).filter (fun p => p.fst == l)).map Prod.snd).length =
      ((recognizedOf tree).map Prod.fst).count l := by
  rw [List.length_map, List.count, List.countP_map,
    ← List.countP_eq_length_filter]
  rfl

/-- Concrete input for the C10 percentage-sum conjunct: ten blob files of
which exactly one has a recognized extension. -/
def c10Tree : List TreeItem :=
  [ { type := "blob", path := "src/app.ts" },
    { type := "blob", path := "f1.data1" }, { type := "blob", path := "f2.data1" },
    { type := "blob", path := "f3.data1" }, { type := "blob", path := "f4.data1" },
    { type := "blob", path := "f5.data1" }, { type := "blob", path := "f6.data1" },
    { type := "blob", path := "f7.data1" }, { type := "blob", path := "f8.data1" },
    { type := "blob", path := "f9.data1" } ]

/-- Claim C10 (amended): `totalFiles` counts every blob file, including ones
whose extension is not in the language table, and the per-language counts
sum to at most `totalFiles`; the percentages can sum far below 100 (at
`c10Tree` they sum to 10).  A non-empty tree of files with table-absent
extensions yields `totalFiles > 0` with an empty language map *only when no
extension is `"constructor"` or `"__proto__"`* — those two, though absent
from the table, are tallied under `Object.prototype` artifacts. -/
theorem analyzeBranchLanguages_unrecognized (tree : List TreeItem) :
    (analyzeBranchLanguages tree).totalFiles =
      (tree.filter (fun item => item.type == "blob")).length
    ∧ ((analyzeBranchLanguages tree).languages.map (fun e => e.snd.fst)).sum
        ≤ (analyzeBranchLanguages tree).totalFiles
    ∧ ((blobFilesOf tree ≠ []
        ∧ ∀ f ∈ blobFilesOf tree,
            extensionOf f.path ∉ languageMapping.map Prod.fst
            ∧ extensionOf f.path ≠ "constructor"
            ∧ extensionOf f.path ≠ "__proto__") →
        0 < (analyzeBranchLanguages tree).totalFiles
        ∧ (analyzeBranchLanguages tree).languages = [])
    ∧ ((analyzeBranchLanguages c10Tree).languages.map (fun e => e.snd.snd)).sum = 10
    ∧ (analyzeBranchLanguages c10Tree).totalFiles = 10 := by
  refine ⟨rfl, ?_, ?_, by decide, by decide⟩
  · simp only [analyzeBranchLanguages, List.map_map]
    have hmap : ∀ l ∈ firstDedup ((recognizedOf tree).map Prod.fst),
        ((fun e : String × Nat × Nat => e.snd.fst) ∘
          (fun p : String × List String =>
            (p.fst, p.snd.length, roundPct p.snd.length (blobFilesOf tree).length)) ∘
          (fun l => (l, ((recognizedOf tree).filter (fun p => p.fst == l)).map Prod.snd))) l
          = ((recognizedOf tree).map Prod.fst).count l := by
      intro l _
      exact group_length_eq_count tree l
    rw [List.map_congr_left hmap, sum_count_firstDedup]
    calc ((recognizedOf tree).map Prod.fst).length
        = (recognizedOf tree).length := List.length_map _ _
      _ ≤ (blobFilesOf tree).length := List.length_filterMap_le _ _
  · rintro ⟨hne, hnone⟩
    have hrec : recognizedOf tree = [] := by
      rw [recognizedOf, List.filterMap_eq_nil_iff]
      intro f hf
      rw [langOf_eq_none (hnone f hf).1 (hnone f hf).2.1 (hnone f hf).2.2]
      rfl
    constructor
    · have : 0 < (blobFilesOf tree).length := List.length_pos.mpr hne
      exact this
    · simp [analyzeBranchLanguages, hrec, firstDedup]

/-- Concrete input for the C10 witness: two blob files, neither with a
recognized extension. -/
def c10WitnessTree : List TreeItem :=
  [ { type := "blob", path := "readme" },
    { type := "blob", path := "resources.data1" } ]

/-- Witness for C10: the unrecognized-only branch of
`analyzeBranchLanguages_unrecognized` applied at `c10WitnessTree`. -/
theorem analyzeBranchLanguages_unrecognized_witness :
    (blobFilesOf c10WitnessTree ≠ []
      ∧ ∀ f ∈ blobFilesOf c10WitnessTree,
          extensionOf f.path ∉ languageMapping.map Prod.fst
          ∧ extensionOf f.path ≠ "constructor"
          ∧ extensionOf f.path ≠ "__proto__")
    ∧ (0 < (analyzeBranchLanguages c10WitnessTree).totalFiles
      ∧ (analyzeBranchLanguages c10WitnessTree).languages = []) :=
  ⟨⟨by decide, by decide⟩,
   (analyzeBranchLanguages_unrecognized c10WitnessTree).2.2.1 ⟨by decide, by decide⟩⟩

/-- Counterexample to claim C10 as stated: the extension `"__proto__"` is
absent from the language table, yet a non-empty tree consisting only of such
a file does not return an empty languages map — the file is tallied under
the stringified `Object.prototype` inherited through the table object. -/
theorem analyzeBranchLanguages_proto_counterexample :
    "__proto__" ∉ languageMapping.map Prod.fst
    ∧ (analyzeBranchLanguages
        [{ type := "blob", path := "x.__proto__" }]).totalFiles = 1
    ∧ (analyzeBranchLanguages
        [{ type := "blob", path := "x.__proto__" }]).languages =
      [(inheritedProtoValue, 1, 100)] := by
  decide

/-! ## TechStackDetector — `analyzeTechStackFromFiles` (ai-summary-service.ts 813-1017) -/

/-- The anonymous record type returned by `analyzeTechStackFromFiles`; the
spec calls it `TechStackProfile`. -/
structure TechStackProfile where
  detected : List String
  frontend : List String
  backend : List String
  database : List String
  devops : List String
  testing : List String
deriving Repr, DecidableEq

/-- The empty accumulator of ai-summary-service.ts 823-830. -/
def emptyTechStack : TechStackProfile :=
  { detected := [], frontend := [], backend := [], database := [],
    devops := [], testing := [] }

/-- The five category arrays of the accumulator. -/
inductive TechCategory where
  | frontend | backend | database | devops | testing
deriving Repr, DecidableEq

/-- `techStack.<cat>.push(name); techStack.detected.push(det)` — every rule
of the source pushes into one category array and into `detected` together. -/
def pushTech (ts : TechStackProfile) (cat : TechCategory) (name det : String) :
    TechStackProfile :=
  match cat with
  | .frontend => { ts with frontend := ts.frontend ++ [name],
                           detected := ts.detected ++ [det] }
  | .backend  => { ts with backend := ts.backend ++ [name],
                           detected := ts.detected ++ [det] }
  | .database => { ts with database := ts.database ++ [name],
                           detected := ts.detected ++ [det] }
  | .devops   => { ts with devops := ts.devops ++ [name],
                           detected := ts.detected ++ [det] }
  | .testing  => { ts with testing := ts.testing ++ [name],
                           detected := ts.detected ++ [det] }

/-- One conditional push-pair of the source's rule chain. -/
structure DepRule where
  cond : String → Bool
  cat : TechCategory
  name : String
  det : String

/-- The dependency rule chain run on every key of the merged
`dependencies`/`devDependencies` object of a `package.json`
(ai-summary-service.ts 841-931), in source order.  Note the `"Prisma ORM"`
and `"MongoDB (Mongoose)"` rules push a different string into `detected`. -/
def depRules : List DepRule :=
  [ ⟨fun dep => jsIncludes dep "react" && !(jsIncludes dep "react-dom"),
      .frontend, "React", "React"⟩,
    ⟨fun dep => jsIncludes dep "vue", .frontend, "Vue.js", "Vue.js"⟩,
    ⟨fun dep => jsIncludes dep "angular", .frontend, "Angular", "Angular"⟩,
    ⟨fun dep => jsIncludes dep "next", .frontend, "Next.js", "Next.js"⟩,
    ⟨fun dep => jsIncludes dep "nuxt", .frontend, "Nuxt.js", "Nuxt.js"⟩,
    ⟨fun dep => jsIncludes dep "tailwind", .frontend, "Tailwind CSS", "Tailwind CSS"⟩,
    ⟨fun dep => jsIncludes dep "express", .backend, "Express.js", "Express.js"⟩,
    ⟨fun dep => jsIncludes dep "fastify", .backend, "Fastify", "Fastify"⟩,
    ⟨fun dep => jsIncludes dep "koa", .backend, "Koa.js", "Koa.js"⟩,
    ⟨fun dep => jsIncludes dep "nestjs" || jsIncludes dep "@nestjs",
      .backend, "NestJS", "NestJS"⟩,
    ⟨fun dep => jsIncludes dep "prisma", .database, "Prisma ORM", "Prisma"⟩,
    ⟨fun dep => jsIncludes dep "typeorm", .database, "TypeORM", "TypeORM"⟩,
    ⟨fun dep => jsIncludes dep "mongoose", .database, "MongoDB (Mongoose)", "MongoDB"⟩,
    ⟨fun dep => jsIncludes dep "pg" || jsIncludes dep "postgres",
      .database, "PostgreSQL", "PostgreSQL"⟩,
    ⟨fun dep => jsIncludes dep "mysql", .database, "MySQL", "MySQL"⟩,
    ⟨fun dep => jsIncludes dep "supabase", .database, "Supabase", "Supabase"⟩,
    ⟨fun dep => jsIncludes dep "typescript", .backend, "TypeScript", "TypeScript"⟩,
    ⟨fun dep => jsIncludes dep "jest", .testing, "Jest", "Jest"⟩,
    ⟨fun dep => jsIncludes dep "cypress", .testing, "Cypress", "Cypress"⟩,
    ⟨fun dep => jsIncludes dep "vitest", .testing, "Vitest", "Vitest"⟩ ]

/-- The rule chain run on every line of a `requirements.txt`
(ai-summary-service.ts 936-957). -/
def reqRules : List DepRule :=
  [ ⟨fun line => jsIncludes line "django", .backend, "Django", "Django"⟩,
    ⟨fun line => jsIncludes line "flask", .backend, "Flask", "Flask"⟩,
    ⟨fun line => jsIncludes line "fastapi", .backend, "FastAPI", "FastAPI"⟩,
    ⟨fun line => jsIncludes line "pandas", .backend, "Pandas", "Pandas"⟩,
    ⟨fun line => jsIncludes line "numpy", .backend, "NumPy", "NumPy"⟩ ]

/-- Run a rule chain on one dependency key / requirements line. -/
def applyRules (rules : List DepRule) (ts : TechStackProfile) (s : String) :
    TechStackProfile :=
  rules.foldl (fun ts r => if r.cond s then pushTech ts r.cat r.name r.det else ts) ts

/-- The non-`package.json` checks of the per-file `try` block
(ai-summary-service.ts 934-1002): `requirements.txt`, `Dockerfile`,
`docker-compose`, `go.mod`, `Cargo.toml`. -/
def analyzeOtherConfigs (ts : TechStackProfile) (path content : String) :
    TechStackProfile :=
  let ts := if jsIncludes path "requirements.txt" then
      (jsSplitOnChar '\n' content).foldl (applyRules reqRules) ts
    else ts
  let ts := if jsIncludes path "Dockerfile" then
      let ts := if jsIncludes content "FROM node" then
          pushTech ts .backend "Node.js" "Node.js" else ts
      let ts := if jsIncludes content "FROM python" then
          pushTech ts .backend "Python" "Python" else ts
      let ts := if jsIncludes content "FROM nginx" then
          pushTech ts .devops "Nginx" "Nginx" else ts
      pushTech ts .devops "Docker" "Docker"
    else ts
  let ts := if jsIncludes path "docker-compose" then
      let ts := pushTech ts .devops "Docker Compose" "Docker Compose"
      let ts := if jsIncludes content "postgres" then
          pushTech ts .database "PostgreSQL" "PostgreSQL" else ts
      let ts := if jsIncludes content "redis" then
          pushTech ts .database "Redis" "Redis" else ts
      if jsIncludes content "mongodb" then
        pushTech ts .database "MongoDB" "MongoDB" else ts
    else ts
  let ts := if jsIncludes path "go.mod" then
      pushTech ts .backend "Go" "Go" else ts
  if jsIncludes path "Cargo.toml" then
    pushTech ts .backend "Rust" "Rust" else ts

/-- The per-file `try` block (ai-summary-service.ts 832-1006).  `parseDeps`
models the opaque library call `Object.keys({...JSON.parse(content).dependencies,
...JSON.parse(content).devDependencies})`; `none` models `JSON.parse`
throwing, which abandons the rest of the block for that file (the
`catch` swallows the error). -/
def analyzeFile (parseDeps : String → Option (List String))
    (ts : TechStackProfile) (path content : String) : TechStackProfile :=
  if jsIncludes path "package.json" then
    match parseDeps content with
    | none => ts
    | some deps => analyzeOtherConfigs (deps.foldl (applyRules depRules) ts) path content
  else analyzeOtherConfigs ts path content

/-- `analyzeTechStackFromFiles` (ai-summary-service.ts 813-1017): run the
per-file rule block over every `(path, content)` entry, then deduplicate
every array (`[...new Set(...)]` keeps first occurrences). -/
def analyzeTechStackFromFiles (parseDeps : String → Option (List String))
    (files : List (String × String)) : TechStackProfile :=
  let ts := files.foldl (fun ts pc => analyzeFile parseDeps ts pc.fst pc.snd)
    emptyTechStack
  { detected := firstDedup ts.detected, frontend := firstDedup ts.frontend,
    backend := firstDedup ts.backend, database := firstDedup ts.database,
    devops := firstDedup ts.devops, testing := firstDedup ts.testing }

/-! ### The C2 invariant: category entries versus the `detected` list -/

/-- The category array selected by a `TechCategory`. -/
def catList (ts : TechStackProfile) : TechCategory → List String
  | .frontend => ts.frontend
  | .backend => ts.backend
  | .database => ts.database
  | .devops => ts.devops
  | .testing => ts.testing

/-- What the rule table guarantees about a category entry `t`: it is in
`detected` verbatim, except for the two database display names, which are
recorded in `detected` under their shorter spellings. -/
def DetOkAt (c : TechCategory) (detected : List String) (t : String) : Prop :=
  t ∈ detected
  ∨ (c = .database ∧ ((t = "Prisma ORM" ∧ "Prisma" ∈ detected)
      ∨ (t = "MongoDB (Mongoose)" ∧ "MongoDB" ∈ detected)))

/-- Relation between the strings a rule pushes into its category and into
`detected`. -/
def PairOk (cat : TechCategory) (name det : String) : Prop :=
  name = det
  ∨ (cat = .database ∧ ((name = "Prisma ORM" ∧ det = "Prisma")
      ∨ (name = "MongoDB (Mongoose)" ∧ det = "MongoDB")))

/-- The invariant: every category entry is accounted for in `detected`. -/
def TechInv (ts : TechStackProfile) : Prop :=
  ∀ c : TechCategory, ∀ t ∈ catList ts c, DetOkAt c ts.detected t

theorem detOkAt_mono {c : TechCategory} {d1 d2 : List String} {t : String}
    (h : ∀ x ∈ d1, x ∈ d2) (ho : DetOkAt c d1 t) : DetOkAt c d2 t := by
  rcases ho with ho | ⟨hc, ⟨ht, hm⟩ | ⟨ht, hm⟩⟩
  · exact Or.inl (h t ho)
  · exact Or.inr ⟨hc, Or.inl ⟨ht, h _ hm⟩⟩
  · exact Or.inr ⟨hc, Or.inr ⟨ht, h _ hm⟩⟩

theorem pushTech_detected (ts : TechStackProfile) (cat : TechCategory)
    (name det : String) :
    (pushTech ts cat name det).detected = ts.detected ++ [det] := by
  cases cat <;> rfl

theorem pushTech_cat_mem (ts : TechStackProfile) (cat : TechCategory)
    (name det : String) (c : TechCategory) (t : String) :
    (t ∈ catList (pushTech ts cat name det) c ↔
      t ∈ catList ts c ∨ (c = cat ∧ t = name)) := by
  cases cat <;> cases c <;>
    simp [pushTech, catList, List.mem_append, List.mem_singleton]

theorem pushTech_inv {ts : TechStackProfile} {cat : TechCategory}
    {name det : String} (hinv : TechInv ts) (hok : PairOk cat name det) :
    TechInv (pushTech ts cat name det) := by
  intro c t ht
  rw [pushTech_cat_mem] at ht
  rw [pushTech_detected]
  have hgrow : ∀ x ∈ ts.detected, x ∈ ts.detected ++ [det] :=
    fun x hx => List.mem_append_left _ hx
  rcases ht with ht | ⟨rfl, rfl⟩
  · exact detOkAt_mono hgrow (hinv c t ht)
  · rcases hok with rfl | ⟨rfl, ⟨rfl, rfl⟩ | ⟨rfl, rfl⟩⟩
    · exact Or.inl (List.mem_append_right _ (List.mem_singleton.mpr rfl))
    · exact Or.inr ⟨rfl, Or.inl ⟨rfl,
        List.mem_append_right _ (List.mem_singleton.mpr rfl)⟩⟩
    · exact Or.inr ⟨rfl, Or.inr ⟨rfl,
        List.mem_append_right _ (List.mem_singleton.mpr rfl)⟩⟩

theorem foldl_inv {α β : Type} (P : α → Prop) (f : α → β → α)
    (hf : ∀ a b, P a → P (f a b)) :
    ∀ (l : List β) (a : α), P a → P (l.foldl f a) := by
  intro l
  induction l with
  | nil => intro a ha; exact ha
  | cons b l ih => intro a ha; exact ih _ (hf a b ha)

instance (cat : TechCategory) (name det : String) :
    Decidable (PairOk cat name det) := by
  unfold PairOk
  infer_instance

theorem depRules_ok : ∀ r ∈ depRules, PairOk r.cat r.name r.det := by
  decide

theorem reqRules_ok : ∀ r ∈ reqRules, PairOk r.cat r.name r.det := by
  decide

theorem applyRules_inv {rules : List DepRule}
    (hr : ∀ r ∈ rules, PairOk r.cat r.name r.det) {ts : TechStackProfile}
    (hinv : TechInv ts) (s : String) : TechInv (applyRules rules ts s) := by
  induction rules generalizing ts with
  | nil => exact hinv
  | cons r rules ih =>
    rw [applyRules, List.foldl_cons]
    refine ih (fun r hr2 => hr r (List.mem_cons_of_mem _ hr2)) ?_
    by_cases hc : r.cond s
    · simpa [hc] using pushTech_inv hinv (hr r (List.mem_cons_self _ _))
    · simpa [hc] using hinv

theorem analyzeOtherConfigs_inv {ts : TechStackProfile}
    (hinv : TechInv ts) (path content : String) :
    TechInv (analyzeOtherConfigs ts path content) := by
  unfold analyzeOtherConfigs
  have step1 : TechInv (if jsIncludes path "requirements.txt" then
      (jsSplitOnChar '\n' content).foldl (applyRules reqRules) ts else ts) := by
    split
    · exact foldl_inv TechInv _ (fun a b ha => applyRules_inv reqRules_ok ha b) _ _ hinv
    · exact hinv
  have step2 : ∀ ts2 : TechStackProfile, TechInv ts2 →
      TechInv (if jsIncludes path "Dockerfile" then
        pushTech (if jsIncludes content "FROM nginx" then
          pushTech (if jsIncludes content "FROM python" then
            pushTech (if jsIncludes content "FROM node" then
              pushTech ts2 .backend "Node.js" "Node.js" else ts2)
              .backend "Python" "Python" else
            (if jsIncludes content "FROM node" then
              pushTech ts2 .backend "Node.js" "Node.js" else ts2))
            .devops "Nginx" "Nginx" else
          (if jsIncludes content "FROM python" then
            pushTech (if jsIncludes content "FROM node" then
              pushTech ts2 .backend "Node.js" "Node.js" else ts2)
              .backend "Python" "Python" else
            (if jsIncludes content "FROM node" then
              pushTech ts2 .backend "Node.js" "Node.js" else ts2)))
          .devops "Docker" "Docker" else ts2) := by
    intro ts2 h2
    split
    · apply pushTech_inv _ (Or.inl rfl)
      split
      · apply pushTech_inv _ (Or.inl rfl)
        split
        · apply pushTech_inv _ (Or.inl rfl)
          split
          · exact pushTech_inv h2 (Or.inl rfl)
          · exact h2
        · split
          · exact pushTech_inv h2 (Or.inl rfl)
          · exact h2
      · split
        · apply pushTech_inv _ (Or.inl rfl)
          split
          · exact pushTech_inv h2 (Or.inl rfl)
          · exact h2
        · split
          · exact pushTech_inv h2 (Or.inl rfl)
          · exact h2
    · exact h2
  have step3 : ∀ ts3 : TechStackProfile, TechInv ts3 →
      TechInv (if jsIncludes path "docker-compose" then
        (if jsIncludes content "mongodb" then
          pushTech (if jsIncludes content "redis" then
            pushTech (if jsIncludes content "postgres" then
              pushTech (pushTech ts3 .devops "Docker Compose" "Docker Compose")
                .database "PostgreSQL" "PostgreSQL"
              else pushTech ts3 .devops "Docker Compose" "Docker Compose")
              .database "Redis" "Redis"
            else (if jsIncludes content "postgres" then
              pushTech (pushTech ts3 .devops "Docker Compose" "Docker Compose")
                .database "PostgreSQL" "PostgreSQL"
              else pushTech ts3 .devops "Docker Compose" "Docker Compose"))
            .database "MongoDB" "MongoDB"
          else (if jsIncludes content "redis" then
            pushTech (if jsIncludes content "postgres" then
              pushTech (pushTech ts3 .devops "Docker Compose" "Docker Compose")
                .database "PostgreSQL" "PostgreSQL"
              else pushTech ts3 .devops "Docker Compose" "Docker Compose")
              .database "Redis" "Redis"
            else (if jsIncludes content "postgres" then
              pushTech (pushTech ts3 .devops "Docker Compose" "Docker Compose")
                .database "PostgreSQL" "PostgreSQL"
              else pushTech ts3 .devops "Docker Compose" "Docker Compose")))
        else ts3) := by
    intro ts3 h3
    have base : TechInv (pushTech ts3 .devops "Docker Compose" "Docker Compose") :=
      pushTech_inv h3 (Or.inl rfl)
    have pg : TechInv (if jsIncludes content "postgres" then
        pushTech (pushTech ts3 .devops "Docker Compose" "Docker Compose")
          .database "PostgreSQL" "PostgreSQL"
        else pushTech ts3 .devops "Docker Compose" "Docker Compose") := by
      split
      · exact pushTech_inv base (Or.inl rfl)
      · exact base
    have rd : TechInv (if jsIncludes content "redis" then
        pushTech (if jsIncludes content "postgres" then
          pushTech (pushTech ts3 .devops "Docker Compose" "Docker Compose")
            .database "PostgreSQL" "PostgreSQL"
          else pushTech ts3 .devops "Docker Compose" "Docker Compose")
          .database "Redis" "Redis"
        else (if jsIncludes content "postgres" then
          pushTech (pushTech ts3 .devops "Docker Compose" "Docker Compose")
            .database "PostgreSQL" "PostgreSQL"
          else pushTech ts3 .devops "Docker Compose" "Docker Compose")) := by
      split
      · exact pushTech_inv pg (Or.inl rfl)
      · exact pg
    split
    · split
      · exact pushTech_inv rd (Or.inl rfl)
      · exact rd
    · exact h3
  have step4 : ∀ ts4 : TechStackProfile, TechInv ts4 →
      TechInv (if jsIncludes path "go.mod" then
        pushTech ts4 .backend "Go" "Go" else ts4) := by
    intro ts4 h4
    split
    · exact pushTech_inv h4 (Or.inl rfl)
    · exact h4
  have step5 : ∀ ts5 : TechStackProfile, TechInv ts5 →
      TechInv (if jsIncludes path "Cargo.toml" then
        pushTech ts5 .backend "Rust" "Rust" else ts5) := by
    intro ts5 h5
    split
    · exact pushTech_inv h5 (Or.inl rfl)
    · exact h5
  exact step5 _ (step4 _ (step3 _ (step2 _ step1)))

theorem analyzeFile_inv (parseDeps : String → Option (List String))
    {ts : TechStackProfile} (hinv : TechInv ts) (path content : String) :
    TechInv (analyzeFile parseDeps ts path content) := by
  unfold analyzeFile
  split
  · cases parseDeps content with
    | none => exact hinv
    | some deps =>
      exact analyzeOtherConfigs_inv
        (foldl_inv TechInv _ (fun a b ha => applyRules_inv depRules_ok ha b) _ _ hinv)
        path content
  · exact analyzeOtherConfigs_inv hinv path content

/-- Claim C2 (amended): in every profile produced by
`analyzeTechStackFromFiles`, each technology name in the `frontend`,
`backend`, `devops` and `testing` lists also appears in `detected`; each
name in `database` appears in `detected` too, except the display names
`"Prisma ORM"` and `"MongoDB (Mongoose)"`, which are recorded in `detected`
under the shorter names `"Prisma"` and `"MongoDB"` respectively. -/
theorem analyzeTechStackFromFiles_detected
    (parseDeps : String → Option (List String)) (files : List (String × String)) :
    (∀ t ∈ (analyzeTechStackFromFiles parseDeps files).frontend,
      t ∈ (analyzeTechStackFromFiles parseDeps files).detected)
    ∧ (∀ t ∈ (analyzeTechStackFromFiles parseDeps files).backend,
      t ∈ (analyzeTechStackFromFiles parseDeps files).detected)
    ∧ (∀ t ∈ (analyzeTechStackFromFiles parseDeps files).devops,
      t ∈ (analyzeTechStackFromFiles parseDeps files).detected)
    ∧ (∀ t ∈ (analyzeTechStackFromFiles parseDeps files).testing,
      t ∈ (analyzeTechStackFromFiles parseDeps files).detected)
    ∧ (∀ t ∈ (analyzeTechStackFromFiles parseDeps files).database,
      t ∈ (analyzeTechStackFromFiles parseDeps files).detected
      ∨ (t = "Prisma ORM" ∧ "Prisma" ∈ (analyzeTechStackFromFiles parseDeps files).detected)
      ∨ (t = "MongoDB (Mongoose)"
          ∧ "MongoDB" ∈ (analyzeTechStackFromFiles parseDeps files).detected)) := by
  have hinv0 : TechInv emptyTechStack := by
    intro c t ht
    cases c <;> exact absurd ht (List.not_mem_nil t)
  have hinv : TechInv (files.foldl
      (fun ts pc => analyzeFile parseDeps ts pc.fst pc.snd) emptyTechStack) :=
    foldl_inv TechInv _
      (fun a b ha => analyzeFile_inv parseDeps ha b.fst b.snd) files _ hinv0
  set raw := files.foldl
    (fun ts pc => analyzeFile parseDeps ts pc.fst pc.snd) emptyTechStack with hraw
  have hfinal : ∀ c : TechCategory, ∀ t,
      t ∈ catList (analyzeTechStackFromFiles parseDeps files) c ↔
        t ∈ catList raw c := by
    intro c t
    cases c <;>
      simp [analyzeTechStackFromFiles, catList, mem_firstDedup, hraw]
  have hdet : ∀ t, t ∈ (analyzeTechStackFromFiles parseDeps files).detected ↔
      t ∈ raw.detected := by
    intro t
    simp [analyzeTechStackFromFiles, mem_firstDedup, hraw]
  refine ⟨?_, ?_, ?_, ?_, ?_⟩
  · intro t ht
    have := hinv .frontend t ((hfinal .frontend t).mp ht)
    rcases this with h | ⟨hc, _⟩
    · exact (hdet t).mpr h
    · cases hc
  · intro t ht
    have := hinv .backend t ((hfinal .backend t).mp ht)
    rcases this with h | ⟨hc, _⟩
    · exact (hdet t).mpr h
    · cases hc
  · intro t ht
    have := hinv .devops t ((hfinal .devops t).mp ht)
    rcases this with h | ⟨hc, _⟩
    · exact (hdet t).mpr h
    · cases hc
  · intro t ht
    have := hinv .testing t ((hfinal .testing t).mp ht)
    rcases this with h | ⟨hc, _⟩
    · exact (hdet t).mpr h
    · cases hc
  · intro t ht
    have := hinv .database t ((hfinal .database t).mp ht)
    rcases this with h | ⟨_, ⟨ht1, hm⟩ | ⟨ht1, hm⟩⟩
    · exact Or.inl ((hdet t).mpr h)
    · exact Or.inr (Or.inl ⟨ht1, (hdet _).mpr hm⟩)
    · exact Or.inr (Or.inr ⟨ht1, (hdet _).mpr hm⟩)

/-- A concrete `package.json` whose dependency object has the single key
`"prisma"`. -/
def prismaManifest : String :=
  "\x7b \"dependencies\": \x7b \"prisma\": \"^5.14.0\" \x7d \x7d"

/-- Models `Object.keys({...JSON.parse(content).dependencies,
...JSON.parse(content).devDependencies})` at the concrete input
`prismaManifest` (whose only dependency key is `"prisma"`). -/
def parseDepsPrisma : String → Option (List String) :=
  fun content => if content == prismaManifest then some ["prisma"] else none

/-- Counterexample to claim C2 as stated: on a manifest declaring the
`prisma` dependency, the profile's `database` list holds `"Prisma ORM"`,
but `detected` only holds `"Prisma"`, so a category entry is missing from
`detected`. -/
theorem analyzeTechStackFromFiles_counterexample :
    "Prisma ORM" ∈ (analyzeTechStackFromFiles parseDepsPrisma
      [("package.json", prismaManifest)]).database
    ∧ "Prisma ORM" ∉ (analyzeTechStackFromFiles parseDepsPrisma
      [("package.json", prismaManifest)]).detected := by
  decide

/-! ## ProjectStructureAnalyzer — `analyzeProjectStructure` and
`determineProjectType` (ai-summary-service.ts 595-808).  The accumulators of
the tree walk are modelled exactly; the Korean report string assembled at
lines 736-758 around `projectType` is not needed by any claim and is not
modelled. -/

/-- JavaScript `Set.prototype.add`: insertion order, no duplicates. -/
def setAdd (s : List String) (x : String) : List String :=
  if x ∈ s then s else s ++ [x]

/-- `map.set(k, (map.get(k) || 0) + 1)` on an insertion-ordered map. -/
def mapBump (m : List (String × Nat)) (k : String) : List (String × Nat) :=
  if (m.lookup k).isSome then
    m.map (fun p => if p.fst == k then (p.fst, p.snd + 1) else p)
  else m ++ [(k, 1)]

/-- `Map.prototype.has`. -/
def mapHas (m : List (String × Nat)) (k : String) : Bool :=
  (m.lookup k).isSome

/-- `frontendFolders` (ai-summary-service.ts 609-617). -/
def frontendFolders : List String :=
  ["src/components", "src/pages", "public", "static", "assets", "styles", "css"]

/-- `backendFolders` (ai-summary-service.ts 627-635). -/
def backendFolders : List String :=
  ["src/routes", "src/controllers", "src/services", "src/models", "api",
   "server", "backend"]

/-- `frontendExts` (ai-summary-service.ts 651-661). -/
def frontendExts : List String :=
  ["jsx", "tsx", "vue", "svelte", "html", "css", "scss", "sass", "less"]

/-- `backendPatterns` (ai-summary-service.ts 667-674). -/
def backendPatterns : List String :=
  ["controller", "service", "model", "route", "middleware", "handler"]

/-- `importantPatterns` (ai-summary-service.ts 681-695). -/
def importantPatterns : List String :=
  ["package.json", "requirements.txt", "Dockerfile", "README",
   "tsconfig.json", "webpack.config", "vite.config", "next.config",
   "docker-compose", "Makefile", "go.mod", "Cargo.toml", "pom.xml"]

/-- `dbPatterns` (ai-summary-service.ts 707-714). -/
def dbPatterns : List String :=
  ["migration", "schema", "seed", "database", ".sql", ".db"]

/-- The accumulators of the `tree.forEach` walk of `analyzeProjectStructure`
(ai-summary-service.ts 596-602). -/
structure ProjectStructureState where
  folders : List String
  fileExtensions : List (String × Nat)
  importantFiles : List String
  frontendIndicators : List String
  backendIndicators : List String
  databaseFiles : List String
  configFiles : List String
deriving Repr, DecidableEq

/-- The empty accumulator state. -/
def emptyStructureState : ProjectStructureState :=
  { folders := [], fileExtensions := [], importantFiles := [],
    frontendIndicators := [], backendIndicators := [], databaseFiles := [],
    configFiles := [] }

/-- One iteration of the `tree.forEach` body (ai-summary-service.ts 604-719). -/
def processTreeItem (st : ProjectStructureState) (item : TreeItem) :
    ProjectStructureState :=
  if item.type == "tree" then
    let st := { st with folders := setAdd st.folders item.path }
    let st := if frontendFolders.any
        (fun pattern => jsIncludes (jsToLower item.path) pattern) then
      { st with frontendIndicators :=
          setAdd st.frontendIndicators ("폴더: " ++ item.path) }
      else st
    if backendFolders.any
        (fun pattern => jsIncludes (jsToLower item.path) pattern) then
      { st with backendIndicators :=
          setAdd st.backendIndicators ("폴더: " ++ item.path) }
    else st
  else if item.type == "blob" then
    let ext := jsToLower (jsLast (jsSplitOnChar '.' item.path))
    let fileName := jsToLower item.path
    let st :=
      if ext != "" then
        let st := { st with fileExtensions := mapBump st.fileExtensions ext }
        let st := if frontendExts.contains ext then
            { st with frontendIndicators :=
                setAdd st.frontendIndicators (ext ++ " 파일") }
          else st
        if backendPatterns.any (fun pattern => jsIncludes fileName pattern) then
          { st with backendIndicators :=
              setAdd st.backendIndicators (ext ++ " 파일 (" ++ fileName ++ ")") }
        else st
      else st
    let st := if importantPatterns.any
        (fun pattern => jsIncludes fileName (jsToLower pattern)) then
      { st with importantFiles := st.importantFiles ++ [item.path],
                configFiles := setAdd st.configFiles item.path }
      else st
    if dbPatterns.any (fun pattern => jsIncludes fileName pattern) then
      { st with databaseFiles := setAdd st.databaseFiles item.path }
    else st
  else st

/-- The accumulator state after walking a whole tree. -/
def structureStateOf (tree : List TreeItem) : ProjectStructureState :=
  tree.foldl processTreeItem emptyStructureState

/-- `hasFrontend` (ai-summary-service.ts 770-775). -/
def hasFrontendSignal (frontendIndicators : List String)
    (fileExtensions : List (String × Nat)) : Bool :=
  frontendIndicators.length > 0 || mapHas fileExtensions "jsx"
    || mapHas fileExtensions "tsx" || mapHas fileExtensions "vue"
    || mapHas fileExtensions "html"

/-- `hasBackend` (ai-summary-service.ts 777-784). -/
def hasBackendSignal (backendIndicators : List String)
    (fileExtensions : List (String × Nat)) : Bool :=
  backendIndicators.length > 0 || mapHas fileExtensions "js"
    || mapHas fileExtensions "ts" || mapHas fileExtensions "py"
    || mapHas fileExtensions "go" || mapHas fileExtensions "java"
    || mapHas fileExtensions "rs"

/-- `determineProjectType` (ai-summary-service.ts 764-808). -/
def determineProjectType (frontendIndicators backendIndicators : List String)
    (fileExtensions : List (String × Nat)) (configFiles : List String) :
    String :=
  let hasFrontend := hasFrontendSignal frontendIndicators fileExtensions
  let hasBackend := hasBackendSignal backendIndicators fileExtensions
  let hasPackageJson := configFiles.any (fun file => jsIncludes file "package.json")
  let hasRequirementsTxt := configFiles.any (fun file => jsIncludes file "requirements.txt")
  let hasGoMod := configFiles.any (fun file => jsIncludes file "go.mod")
  if hasFrontend && hasBackend then "풀스택 웹 애플리케이션"
  else if hasFrontend && !hasBackend then "프론트엔드 전용 애플리케이션"
  else if !hasFrontend && hasBackend then
    if hasPackageJson then "Node.js 백엔드 API"
    else if hasRequirementsTxt then "Python 백엔드 API"
    else if hasGoMod then "Go 백엔드 API"
    else "백엔드 API 서버"
  else "라이브러리/유틸리티 프로젝트"

/-- The `projectType` computed inside `analyzeProjectStructure`
(ai-summary-service.ts 729-734). -/
def projectTypeOf (tree : List TreeItem) : String :=
  determineProjectType (structureStateOf tree).frontendIndicators
    (structureStateOf tree).backendIndicators
    (structureStateOf tree).fileExtensions
    (structureStateOf tree).configFiles

/-- A tree with only `.py` files plus a `requirements.txt` (the example
scenario of the spec). -/
def c4PyTree : List TreeItem :=
  [ { type := "blob", path := "main.py" },
    { type := "blob", path := "utils.py" },
    { type := "blob", path := "requirements.txt" } ]

/-- A frontend-only tree carrying a known frontend build-tool config file
(`vite.config.mjs`). -/
def c4SpaTree : List TreeItem :=
  [ { type := "blob", path := "index.html" },
    { type := "blob", path := "vite.config.mjs" } ]

/-- Counterexample to claim C4 as stated: `c4SpaTree` has the frontend
signal, no backend signal, and a known frontend build-tool config file in
`configFiles`, yet `determineProjectType` answers the plain frontend-only
classification — no branch of the function ever produces an "SPA"
refinement. -/
theorem determineProjectType_counterexample :
    hasFrontendSignal (structureStateOf c4SpaTree).frontendIndicators
      (structureStateOf c4SpaTree).fileExtensions = true
    ∧ hasBackendSignal (structureStateOf c4SpaTree).backendIndicators
      (structureStateOf c4SpaTree).fileExtensions = false
    ∧ (structureStateOf c4SpaTree).configFiles.any
        (fun file => jsIncludes file "vite.config") = true
    ∧ projectTypeOf c4SpaTree = "프론트엔드 전용 애플리케이션"
    ∧ jsIncludes (projectTypeOf c4SpaTree) "SPA" = false := by
  decide

/-- Claim C4 (amended): `determineProjectType` evaluates its decision table
in the stated order with no later rule overriding an earlier match —
frontend-and-backend yields the full-stack classification; frontend-only
yields the frontend-only classification (with no SPA refinement);
backend-only yields a backend API classification refined by ecosystem marker
file, a manifest taking priority over a requirements file, which takes
priority over a module file; neither yields the library/utility
classification.  A tree of only `.py` files plus a `requirements.txt` yields
the Python backend API classification. -/
theorem determineProjectType_table (fi bi : List String)
    (fe : List (String × Nat)) (cf : List String) :
    (hasFrontendSignal fi fe = true → hasBackendSignal bi fe = true →
      determineProjectType fi bi fe cf = "풀스택 웹 애플리케이션")
    ∧ (hasFrontendSignal fi fe = true → hasBackendSignal bi fe = false →
      determineProjectType fi bi fe cf = "프론트엔드 전용 애플리케이션")
    ∧ (hasFrontendSignal fi fe = false → hasBackendSignal bi fe = true →
      cf.any (fun file => jsIncludes file "package.json") = true →
      determineProjectType fi bi fe cf = "Node.js 백엔드 API")
    ∧ (hasFrontendSignal fi fe = false → hasBackendSignal bi fe = true →
      cf.any (fun file => jsIncludes file "package.json") = false →
      cf.any (fun file => jsIncludes file "requirements.txt") = true →
      determineProjectType fi bi fe cf = "Python 백엔드 API")
    ∧ (hasFrontendSignal fi fe = false → hasBackendSignal bi fe = true →
      cf.any (fun file => jsIncludes file "package.json") = false →
      cf.any (fun file => jsIncludes file "requirements.txt") = false →
      cf.any (fun file => jsIncludes file "go.mod") = true →
      determineProjectType fi bi fe cf = "Go 백엔드 API")
    ∧ (hasFrontendSignal fi fe = false → hasBackendSignal bi fe = true →
      cf.any (fun file => jsIncludes file "package.json") = false →
      cf.any (fun file => jsIncludes file "requirements.txt") = false →
      cf.any (fun file => jsIncludes file "go.mod") = false →
      determineProjectType fi bi fe cf = "백엔드 API 서버")
    ∧ (hasFrontendSignal fi fe = false → hasBackendSignal bi fe = false →
      determineProjectType fi bi fe cf = "라이브러리/유틸리티 프로젝트")
    ∧ projectTypeOf c4PyTree = "Python 백엔드 API" := by
  refine ⟨?_, ?_, ?_, ?_, ?_, ?_, ?_, by decide⟩
  · intro h1 h2
    unfold determineProjectType
    rw [h1, h2]
    rfl
  · intro h1 h2
    unfold determineProjectType
    rw [h1, h2]
    rfl
  · intro h1 h2 h3
    unfold determineProjectType
    rw [h1, h2, h3]
    rfl
  · intro h1 h2 h3 h4
    unfold determineProjectType
    rw [h1, h2, h3, h4]
    rfl
  · intro h1 h2 h3 h4 h5
    unfold determineProjectType
    rw [h1, h2, h3, h4, h5]
    rfl
  · intro h1 h2 h3 h4 h5
    unfold determineProjectType
    rw [h1, h2, h3, h4, h5]
    rfl
  · intro h1 h2
    unfold determineProjectType
    rw [h1, h2]
    rfl

/-- Witness for C4: the backend-only-with-requirements branch of
`determineProjectType_table`, applied at the state of `c4PyTree`. -/
theorem determineProjectType_table_witness :
    (hasFrontendSignal (structureStateOf c4PyTree).frontendIndicators
        (structureStateOf c4PyTree).fileExtensions = false
      ∧ hasBackendSignal (structureStateOf c4PyTree).backendIndicators
        (structureStateOf c4PyTree).fileExtensions = true
      ∧ (structureStateOf c4PyTree).configFiles.any
          (fun file => jsIncludes file "package.json") = false
      ∧ (structureStateOf c4PyTree).configFiles.any
          (fun file => jsIncludes file "requirements.txt") = true)
    ∧ determineProjectType (structureStateOf c4PyTree).frontendIndicators
        (structureStateOf c4PyTree).backendIndicators
        (structureStateOf c4PyTree).fileExtensions
        (structureStateOf c4PyTree).configFiles = "Python 백엔드 API" :=
  ⟨⟨by decide, by decide, by decide, by decide⟩,
   (determineProjectType_table (structureStateOf c4PyTree).frontendIndicators
      (structureStateOf c4PyTree).backendIndicators
      (structureStateOf c4PyTree).fileExtensions
      (structureStateOf c4PyTree).configFiles).2.2.2.1
    (by decide) (by decide) (by decide) (by decide)⟩

/-! ## SummaryStore — `saveRepositorySummary` (ai-summary-service.ts 245-350)

The summary record types of the `RepositorySummary` interface
(ai-summary-service.ts 27-54), and an explicit state model of the two
database tables the function touches: the repository registry
(`repositories`, consulted only through its ids) and the summary table
(`repository_summaries`, keyed by `(repository_id, branch_name)` through the
upsert's `onConflict` clause). -/

/-- One resume bullet `{title, content}`. -/
structure ResumeBullet where
  title : String
  content : String
deriving Repr, DecidableEq

/-- The category-keyed `tech_stack` object of a `RepositorySummary`. -/
structure TechStackRecord where
  frontend : List String
  backend : List String
  database : List String
  devops : List String
  testing : List String
  other : List String
deriving Repr, DecidableEq

/-- The fields of the `RepositorySummary` interface that the modelled
functions read or write (the optional bookkeeping fields `id`,
`repository_id`, `created_at`, `updated_at` live on the stored row). -/
structure RepositorySummary where
  branch_name : String
  project_intro : String
  tech_stack : TechStackRecord
  refactoring_history : String
  collaboration_flow : String
  resume_bullets : List ResumeBullet
deriving Repr, DecidableEq

/-- The `performance_metrics` parameter (ai-summary-service.ts 249-257);
`top_languages: any[]` is kept as an opaque list of strings. -/
structure PerformanceMetrics where
  commits_analyzed : Nat
  prs_analyzed : Nat
  files_analyzed : Nat
  branch_total_files : Option Nat
  branch_languages : Option Nat
  top_languages : List String
  analysis_duration : Option Nat
deriving Repr, DecidableEq

/-- The `dataToSave` object (ai-summary-service.ts 286-296): everything the
upsert writes.  `updated_at` carries the `new Date().toISOString()` value,
passed in as `now`. -/
structure SummaryData where
  repository_id : String
  branch_name : String
  project_intro : String
  tech_stack : TechStackRecord
  refactoring_history : String
  collaboration_flow : String
  resume_bullets : List ResumeBullet
  performance_metrics : Option PerformanceMetrics
  updated_at : String
deriving Repr, DecidableEq

/-- A stored summary row: a generated primary key plus the written data. -/
structure SummaryRow where
  id : String
  data : SummaryData
deriving Repr, DecidableEq

/-- The database state visible to `saveRepositorySummary`. -/
structure Db where
  repositories : List String
  summaries : List SummaryRow
deriving Repr, DecidableEq

/-- `dataToSave` (ai-summary-service.ts 286-296).  The defensive coercions of
lines 264-269 (`typeof summary.tech_stack === "object" ? ... : {}` and the
`Array.isArray` check) are identities in this typed model, and
`summary.project_intro || ""` is the identity on strings. -/
def dataToSaveOf (repositoryId branchName : String) (summary : RepositorySummary)
    (performanceMetrics : Option PerformanceMetrics) (now : String) :
    SummaryData :=
  { repository_id := repositoryId, branch_name := branchName,
    project_intro := summary.project_intro, tech_stack := summary.tech_stack,
    refactoring_history := summary.refactoring_history,
    collaboration_flow := summary.collaboration_flow,
    resume_bullets := summary.resume_bullets,
    performance_metrics := performanceMetrics, updated_at := now }

/-- The `(repository_id, branch_name)` conflict key of the upsert. -/
def summaryKey (d : SummaryData) (r : SummaryRow) : Bool :=
  r.data.repository_id == d.repository_id && r.data.branch_name == d.branch_name

/-- The store's `upsert(dataToSave, { onConflict: "repository_id,branch_name" })`
(ai-summary-service.ts 314-318): on conflict every field of the existing row
is overwritten and its id returned; otherwise a fresh row is inserted under
`newId`. -/
def upsertSummary (rows : List SummaryRow) (d : SummaryData) (newId : String) :
    String × List SummaryRow :=
  match rows.find? (summaryKey d) with
  | some r0 =>
    (r0.id, rows.map (fun r => if summaryKey d r then { r with data := d } else r))
  | none => (newId, rows ++ [{ id := newId, data := d }])

/-- The body of `saveRepositorySummary` inside its `try` (ai-summary-service.ts
259-342): build `dataToSave`, check that `repositoryId` exists in the
repository registry (the `.select("id").eq("id", repositoryId).single()` of
lines 300-310, which errors when no row matches), then upsert. -/
def saveRepositorySummaryInner (repositoryId branchName : String)
    (summary : RepositorySummary) (performanceMetrics : Option PerformanceMetrics)
    (now newId : String) (db : Db) : Except String (String × Db) :=
  let dataToSave := dataToSaveOf repositoryId branchName summary performanceMetrics now
  if repositoryId ∈ db.repositories then
    let r := upsertSummary db.summaries dataToSave newId
    Except.ok (r.fst, { db with summaries := r.snd })
  else Except.error ("Repository not found: " ++ repositoryId)

/-- `saveRepositorySummary` (ai-summary-service.ts 245-350): the surrounding
`catch` (lines 343-349) logs any error and rethrows the generic
`"Failed to save repository summary"`; the state is returned alongside the
result. -/
def saveRepositorySummary (repositoryId branchName : String)
    (summary : RepositorySummary) (performanceMetrics : Option PerformanceMetrics)
    (now newId : String) (db : Db) : Except String String × Db :=
  match saveRepositorySummaryInner repositoryId branchName summary
      performanceMetrics now newId db with
  | .ok (id, db2) => (.ok id, db2)
  | .error _ => (.error "Failed to save repository summary", db)

/-- Overwriting the data of a matching row keeps it matching; a
non-matching row is untouched. -/
theorem summaryKey_replace (d : SummaryData) (r : SummaryRow) :
    summaryKey d (if summaryKey d r then { r with data := d } else r) =
      summaryKey d r := by
  by_cases hk : summaryKey d r
  · have h1 : r.data.repository_id = d.repository_id := by
      have := hk
      simp [summaryKey] at this
      exact this.1
    have h2 : r.data.branch_name = d.branch_name := by
      have := hk
      simp [summaryKey] at this
      exact this.2
    simp [summaryKey, h1, h2]
  · simp [hk]

/-- After an upsert against a store holding at most one row for the conflict
key, the rows matching that key are exactly one, carrying the upserted data. -/
theorem upsertSummary_filter (rows : List SummaryRow) (d : SummaryData)
    (newId : String) (h1 : (rows.filter (summaryKey d)).length ≤ 1) :
    (((upsertSummary rows d newId).snd.filter (summaryKey d)).map
      (fun r => r.data)) = [d] := by
  unfold upsertSummary
  cases hfind : rows.find? (summaryKey d) with
  | some r0 =>
    simp only
    have hcomm : ((rows.map (fun r =>
        if summaryKey d r then { r with data := d } else r)).filter (summaryKey d))
        = (rows.filter (summaryKey d)).map (fun r =>
            if summaryKey d r then { r with data := d } else r) := by
      rw [List.filter_map]
      congr 1
      apply List.filter_congr
      intro r _
      exact summaryKey_replace d r
    have hmem : r0 ∈ rows.filter (summaryKey d) :=
      List.mem_filter.mpr ⟨List.mem_of_find?_eq_some hfind, List.find?_some hfind⟩
    have hlen : (rows.filter (summaryKey d)).length = 1 := by
      have : 0 < (rows.filter (summaryKey d)).length := List.length_pos.mpr
        (fun he => by rw [he] at hmem; exact absurd hmem (List.not_mem_nil r0))
      omega
    obtain ⟨x, hx⟩ := List.length_eq_one.mp hlen
    have hkx : summaryKey d x = true := by
      have : x ∈ rows.filter (summaryKey d) := by
        rw [hx]; exact List.mem_singleton_self x
      exact (List.mem_filter.mp this).2
    rw [hcomm, hx]
    simp [hkx]
  | none =>
    simp only
    have hnil : rows.filter (summaryKey d) = [] :=
      List.filter_eq_nil_iff.mpr (List.find?_eq_none.mp hfind)
    rw [List.filter_append, hnil]
    simp [summaryKey]

/-- A successful registry check turns `saveRepositorySummary` into a plain
upsert. -/
theorem saveRepositorySummary_ok (repositoryId branchName : String)
    (summary : RepositorySummary) (pm : Option PerformanceMetrics)
    (now newId : String) (db : Db) (h : repositoryId ∈ db.repositories) :
    saveRepositorySummary repositoryId branchName summary pm now newId db =
      (Except.ok (upsertSummary db.summaries
          (dataToSaveOf repositoryId branchName summary pm now) newId).fst,
        { db with summaries := (upsertSummary db.summaries
          (dataToSaveOf repositoryId branchName summary pm now) newId).snd }) := by
  simp [saveRepositorySummary, saveRepositorySummaryInner, h]

/-- Claim C5 (amended): when the repository registry holds no row for
`repositoryId`, `saveRepositorySummary` fails before attempting the upsert —
the registry check raises `"Repository not found: …"` internally, the
`catch` surfaces it as the generic `"Failed to save repository summary"` —
and the database state, in particular the summary store, is unchanged, so no
orphan summary row is created. -/
theorem saveRepositorySummary_missing_repo (repositoryId branchName : String)
    (summary : RepositorySummary) (pm : Option PerformanceMetrics)
    (now newId : String) (db : Db) (h : repositoryId ∉ db.repositories) :
    saveRepositorySummaryInner repositoryId branchName summary pm now newId db =
      Except.error ("Repository not found: " ++ repositoryId)
    ∧ (saveRepositorySummary repositoryId branchName summary pm now newId db).fst =
      Except.error "Failed to save repository summary"
    ∧ (saveRepositorySummary repositoryId branchName summary pm now newId db).snd = db := by
  have hinner : saveRepositorySummaryInner repositoryId branchName summary pm
      now newId db = Except.error ("Repository not found: " ++ repositoryId) := by
    simp [saveRepositorySummaryInner, h]
  refine ⟨hinner, ?_, ?_⟩ <;> simp [saveRepositorySummary, hinner]

/-- A concrete summary draft for the store witnesses. -/
def c5Summary : RepositorySummary :=
  { branch_name := "main", project_intro := "intro",
    tech_stack := { frontend := [], backend := ["Fastify"], database := [],
                    devops := [], testing := [], other := [] },
    refactoring_history := "history", collaboration_flow := "flow",
    resume_bullets := [{ title := "t", content := "c" }] }

/-- Witness for C5: `saveRepositorySummary` against an empty registry. -/
theorem saveRepositorySummary_missing_repo_witness :
    "repo-1" ∉ ({ repositories := [], summaries := [] } : Db).repositories
    ∧ (saveRepositorySummaryInner "repo-1" "main" c5Summary none "t0" "id-1"
        { repositories := [], summaries := [] } =
        Except.error ("Repository not found: " ++ "repo-1")
      ∧ (saveRepositorySummary "repo-1" "main" c5Summary none "t0" "id-1"
          { repositories := [], summaries := [] }).fst =
        Except.error "Failed to save repository summary"
      ∧ (saveRepositorySummary "repo-1" "main" c5Summary none "t0" "id-1"
          { repositories := [], summaries := [] }).snd =
        { repositories := [], summaries := [] }) :=
  ⟨by decide,
   saveRepositorySummary_missing_repo "repo-1" "main" c5Summary none "t0" "id-1"
     { repositories := [], summaries := [] } (by decide)⟩

/-- Counterexample to claim C5 as stated: the error that
`saveRepositorySummary` delivers to its caller on a missing repository is
the generic `"Failed to save repository summary"` — the internal
`"Repository not found"` cause does not survive the function's catch-all,
so the call does not fail *with a repository-not-found error*. -/
theorem saveRepositorySummary_counterexample :
    (saveRepositorySummary "repo-1" "main" c5Summary none "t0" "id-1"
        { repositories := [], summaries := [] }).fst =
      Except.error "Failed to save repository summary"
    ∧ jsIncludes "Failed to save repository summary" "not found" = false
    ∧ jsIncludes "Failed to save repository summary" "Repository" = false := by
  refine ⟨by rfl, by decide, by decide⟩

/-- Claim C6: two consecutive `saveRepositorySummary` calls with the same
`(repositoryId, branchName)` key and two different drafts leave exactly one
stored row for that key, and its content — every field, `updated_at`
included — is the second call's `dataToSave`.  The hypotheses are the upsert
precondition (the repository is registered) and the store's uniqueness
invariant (at most one row per conflict key, maintained by the unique index
behind `onConflict`). -/
theorem saveRepositorySummary_idempotent (repositoryId branchName : String)
    (s1 s2 : RepositorySummary) (pm1 pm2 : Option PerformanceMetrics)
    (now1 now2 id1 id2 : String) (db : Db)
    (hrepo : repositoryId ∈ db.repositories)
    (huniq : (db.summaries.filter
      (summaryKey (dataToSaveOf repositoryId branchName s2 pm2 now2))).length ≤ 1) :
    (((saveRepositorySummary repositoryId branchName s2 pm2 now2 id2
        (saveRepositorySummary repositoryId branchName s1 pm1 now1 id1 db).snd).snd.summaries.filter
      (summaryKey (dataToSaveOf repositoryId branchName s2 pm2 now2))).map
      (fun r => r.data)) = [dataToSaveOf repositoryId branchName s2 pm2 now2] := by
  have hkeys : summaryKey (dataToSaveOf repositoryId branchName s1 pm1 now1) =
      summaryKey (dataToSaveOf repositoryId branchName s2 pm2 now2) := by
    funext r
    rfl
  rw [saveRepositorySummary_ok repositoryId branchName s1 pm1 now1 id1 db hrepo]
  have hrepo2 : repositoryId ∈
      ({ db with summaries := (upsertSummary db.summaries
        (dataToSaveOf repositoryId branchName s1 pm1 now1) id1).snd } : Db).repositories := hrepo
  rw [saveRepositorySummary_ok repositoryId branchName s2 pm2 now2 id2 _ hrepo2]
  apply upsertSummary_filter
  dsimp only
  have h1 := upsertSummary_filter db.summaries
    (dataToSaveOf repositoryId branchName s1 pm1 now1) id1 (by rw [hkeys]; exact huniq)
  rw [hkeys] at h1
  have h2 := congrArg List.length h1
  rw [List.length_map] at h2
  simp only [List.length_singleton] at h2
  omega

/-- Witness for C6 at a concrete database holding the repository and no
summaries. -/
theorem saveRepositorySummary_idempotent_witness :
    ("repo-1" ∈ ({ repositories := ["repo-1"], summaries := [] } : Db).repositories
      ∧ (({ repositories := ["repo-1"], summaries := [] } : Db).summaries.filter
          (summaryKey (dataToSaveOf "repo-1" "main" c5Summary none "t2"))).length ≤ 1)
    ∧ (((saveRepositorySummary "repo-1" "main" c5Summary none "t2" "id-2"
          (saveRepositorySummary "repo-1" "main"
            { c5Summary with project_intro := "first draft" } none "t1" "id-1"
            { repositories := ["repo-1"], summaries := [] }).snd).snd.summaries.filter
        (summaryKey (dataToSaveOf "repo-1" "main" c5Summary none "t2"))).map
        (fun r => r.data)) = [dataToSaveOf "repo-1" "main" c5Summary none "t2"] :=
  ⟨⟨by decide, by decide⟩,
   saveRepositorySummary_idempotent "repo-1" "main"
     { c5Summary with project_intro := "first draft" } c5Summary none none
     "t1" "t2" "id-1" "id-2" { repositories := ["repo-1"], summaries := [] }
     (by decide) (by decide)⟩

/-! ## Branch-fallback for ref-scoped VCS calls

Each function is modelled against an oracle `fetch : String → Except String α`
standing for the underlying HTTP call at a given ref (`axios.get` /
`fetch` + `response.ok`); alongside the result we return the list of refs
actually queried, so "exactly one retry" is a statement about that trace.
The source implements the fallback by a recursive self-call with `"master"`;
since the fallback guard requires the ref to be `"main"`, that inner call
can never recurse again and is inlined here. -/

/-- `getRepositoryCommits` (repository-service.ts 282-334): on any failure
for ref `"main"`, retry once with `"master"`; a failure there, or on any
other ref, is rethrown as `"Failed to fetch repository commits"`. -/
def getRepositoryCommits {α : Type} (fetch : String → Except String α)
    (branch : String) : Except String α × List String :=
  match fetch branch with
  | .ok v => (.ok v, [branch])
  | .error _ =>
    if branch == "main" then
      match fetch "master" with
      | .ok v => (.ok v, [branch, "master"])
      | .error _ => (.error "Failed to fetch repository commits", [branch, "master"])
    else (.error "Failed to fetch repository commits", [branch])

/-- `getRepositoryContents` (repository-service.ts 228-277): same shape as
`getRepositoryCommits` with its own error message. -/
def getRepositoryContents {α : Type} (fetch : String → Except String α)
    (ref : String) : Except String α × List String :=
  match fetch ref with
  | .ok v => (.ok v, [ref])
  | .error _ =>
    if ref == "main" then
      match fetch "master" with
      | .ok v => (.ok v, [ref, "master"])
      | .error _ => (.error "Failed to fetch repository contents", [ref, "master"])
    else (.error "Failed to fetch repository contents", [ref])

/-- `getRepositoryReadme` (repository-service.ts 145-198): retries `"main"`
once with `"master"`, but never propagates a failure — when the retry fails,
and when any non-`"main"` ref fails, it returns the empty string. -/
def getRepositoryReadme (fetch : String → Except String String)
    (ref : String) : String × List String :=
  match fetch ref with
  | .ok v => (v, [ref])
  | .error _ =>
    if ref == "main" then
      match fetch "master" with
      | .ok v => (v, [ref, "master"])
      | .error _ => ("", [ref, "master"])
    else ("", [ref])

/-- `getRepositoryTree` (resume-service.ts 1915-1969): a non-ok response for
`"main"` triggers one fetch of `"master"`; a non-ok response there, or for
any other branch, throws, and the surrounding catch rethrows
`"Failed to fetch repository tree"`. -/
def getRepositoryTree (fetch : String → Except String (List TreeItem))
    (branch : String) : Except String (List TreeItem) × List String :=
  match fetch branch with
  | .ok v => (.ok v, [branch])
  | .error _ =>
    if branch == "main" then
      match fetch "master" with
      | .ok v => (.ok v, [branch, "master"])
      | .error _ => (.error "Failed to fetch repository tree", [branch, "master"])
    else (.error "Failed to fetch repository tree", [branch])

/-- Claim C7 (amended): for `getRepositoryCommits`, `getRepositoryContents`
and `getRepositoryTree` the claim holds as stated — a failure on `"main"` is
retried exactly once with `"master"`, succeeding iff the retry succeeds,
both failing makes the call fail after exactly one retry, and a failure on
any other ref propagates with no retry.  `getRepositoryReadme` also retries
`"main"` exactly once with `"master"` and succeeds when the retry succeeds,
but it never fails: when both refs fail — and when a non-`"main"` ref
fails, without any retry — it swallows the error and returns `""`. -/
theorem branchFallback_once {α : Type} (fetch : String → Except String α)
    (fetchS : String → Except String String) (v : α) (w : String)
    (e1 e2 : String) (ref : String) :
    (fetch "main" = .error e1 → fetch "master" = .ok v →
      getRepositoryCommits fetch "main" = (.ok v, ["main", "master"])
      ∧ getRepositoryContents fetch "main" = (.ok v, ["main", "master"]))
    ∧ (fetch "main" = .error e1 → fetch "master" = .error e2 →
      getRepositoryCommits fetch "main" =
        (.error "Failed to fetch repository commits", ["main", "master"])
      ∧ getRepositoryContents fetch "main" =
        (.error "Failed to fetch repository contents", ["main", "master"]))
    ∧ (ref ≠ "main" → fetch ref = .error e1 →
      getRepositoryCommits fetch ref =
        (.error "Failed to fetch repository commits", [ref])
      ∧ getRepositoryContents fetch ref =
        (.error "Failed to fetch repository contents", [ref]))
    ∧ (∀ treeFetch : String → Except String (List TreeItem),
      (treeFetch "main" = .error e1 → ∀ t, treeFetch "master" = .ok t →
        getRepositoryTree treeFetch "main" = (.ok t, ["main", "master"]))
      ∧ (treeFetch "main" = .error e1 → treeFetch "master" = .error e2 →
        getRepositoryTree treeFetch "main" =
          (.error "Failed to fetch repository tree", ["main", "master"]))
      ∧ (ref ≠ "main" → treeFetch ref = .error e1 →
        getRepositoryTree treeFetch ref =
          (.error "Failed to fetch repository tree", [ref])))
    ∧ (fetchS "main" = .error e1 → fetchS "master" = .ok w →
      getRepositoryReadme fetchS "main" = (w, ["main", "master"]))
    ∧ (fetchS "main" = .error e1 → fetchS "master" = .error e2 →
      getRepositoryReadme fetchS "main" = ("", ["main", "master"]))
    ∧ (ref ≠ "main" → fetchS ref = .error e1 →
      getRepositoryReadme fetchS ref = ("", [ref])) := by
  have hne : ∀ r : String, r ≠ "main" → (r == "main") = false := by
    intro r hr
    exact beq_false_of_ne hr
  refine ⟨?_, ?_, ?_, ?_, ?_, ?_, ?_⟩
  · intro h1 h2
    constructor <;> simp [getRepositoryCommits, getRepositoryContents, h1, h2]
  · intro h1 h2
    constructor <;> simp [getRepositoryCommits, getRepositoryContents, h1, h2]
  · intro hr h1
    constructor <;>
      simp [getRepositoryCommits, getRepositoryContents, h1, hne ref hr]
  · intro treeFetch
    refine ⟨?_, ?_, ?_⟩
    · intro h1 t h2
      simp [getRepositoryTree, h1, h2]
    · intro h1 h2
      simp [getRepositoryTree, h1, h2]
    · intro hr h1
      simp [getRepositoryTree, h1, hne ref hr]
  · intro h1 h2
    simp [getRepositoryReadme, h1, h2]
  · intro h1 h2
    simp [getRepositoryReadme, h1, h2]
  · intro hr h1
    simp [getRepositoryReadme, h1, hne ref hr]

/-- An oracle that fails for every ref. -/
def failingFetch : String → Except String String :=
  fun _ => Except.error "Request failed with status code 404"

/-- An oracle that fails for `"main"` and succeeds for `"master"`. -/
def masterOnlyFetch : String → Except String String :=
  fun r => if r == "master" then Except.ok "ok-data"
    else Except.error "Request failed with status code 404"

/-- Witness for C7: the two readme branches of `branchFallback_once` at the
concrete oracles `masterOnlyFetch` and `failingFetch`. -/
theorem branchFallback_once_witness :
    (masterOnlyFetch "main" = Except.error "Request failed with status code 404"
      ∧ masterOnlyFetch "master" = Except.ok "ok-data"
      ∧ getRepositoryReadme masterOnlyFetch "main" = ("ok-data", ["main", "master"]))
    ∧ (failingFetch "main" = Except.error "Request failed with status code 404"
      ∧ failingFetch "master" = Except.error "Request failed with status code 404"
      ∧ getRepositoryReadme failingFetch "main" = ("", ["main", "master"])) :=
  ⟨⟨by rfl, by rfl,
    (branchFallback_once masterOnlyFetch masterOnlyFetch "x" "ok-data"
      "Request failed with status code 404" "e" "dev").2.2.2.2.1
      (by rfl) (by rfl)⟩,
   ⟨by rfl, by rfl,
    (branchFallback_once failingFetch failingFetch "x"
      "w" "Request failed with status code 404"
      "Request failed with status code 404" "dev").2.2.2.2.2.1
      (by rfl) (by rfl)⟩⟩

/-- Counterexample to claim C7 as stated: with a collaborator failing for
every ref, `getRepositoryReadme` against `"main"` does *not* fail — after
its single retry it returns the empty string as a success (its return type
has no failure channel at all), and on a non-`"main"` ref a failure is
likewise swallowed into `""` rather than propagated. -/
theorem branchFallback_readme_counterexample :
    getRepositoryReadme failingFetch "main" = ("", ["main", "master"])
    ∧ getRepositoryReadme failingFetch "develop" = ("", ["develop"]) := by
  decide

/-! ## SectionExtractor — the response parser of
`generateEnhancedRepositorySummary` (ai-summary-service.ts 1193-1363) and
`processSection` (ai-summary-service.ts 1423-1663)

The remaining JavaScript string operations: splitting on a character class,
splitting on the separator regexes of the resume-bullet tiers, `substring`,
`indexOf`, `replace(/\n/g, " ")` and `Array.prototype.join`. -/

/-- Auxiliary loop for `jsSplitOnPred`. -/
def splitOnPredAux (p : Char → Bool) : List Char → List Char → List String
  | [], acc => [String.mk acc.reverse]
  | x :: xs, acc =>
    if p x then String.mk acc.reverse :: splitOnPredAux p xs []
    else splitOnPredAux p xs (x :: acc)

/-- JavaScript `String.prototype.split` on a one-character class regex such
as `/[,\n]/` or `/[.!?]/`. -/
def jsSplitOnPred (p : Char → Bool) (s : String) : List String :=
  splitOnPredAux p s.toList []

/-- Splitting loop against a separator matcher `cut`: at each position `cut`
either recognizes a separator and returns the remainder after it, or does
not.  Every separator below consumes at least one character, so a fuel of
`length + 1` makes the fuel-exhausted arm unreachable. -/
def splitByCutterAux (cut : List Char → Option (List Char)) :
    Nat → List Char → List Char → List String
  | 0, cs, acc => [String.mk (acc.reverse ++ cs)]
  | _ + 1, [], acc => [String.mk acc.reverse]
  | fuel + 1, c :: cs, acc =>
    match cut (c :: cs) with
    | some rest => String.mk acc.reverse :: splitByCutterAux cut fuel rest []
    | none => splitByCutterAux cut fuel cs (c :: acc)

/-- JavaScript `String.prototype.split(re)` for the separator regexes of the
resume-bullet tiers. -/
def jsSplitByCutter (cut : List Char → Option (List Char)) (s : String) :
    List String :=
  splitByCutterAux cut (s.toList.length + 1) s.toList []

/-- Is there a separator match anywhere (JavaScript `String.prototype.match`
used as a boolean test)? -/
def existsCut (cut : List Char → Option (List Char)) : List Char → Bool
  | [] => false
  | c :: cs => (cut (c :: cs)).isSome || existsCut cut cs

/-- The separator `/[•\-\*]\s+/`: a bullet glyph followed by one or more
whitespace characters (consumed greedily). -/
def cutBulletWs : List Char → Option (List Char)
  | c :: rest =>
    if (c == '•' || c == '-' || c == '*')
        && (match rest with | r :: _ => jsIsSpace r | [] => false) then
      some (rest.dropWhile jsIsSpace)
    else none
  | [] => none

/-- The separator `/\d+\.\s+/`: one or more digits, a dot, then one or more
whitespace characters (consumed greedily). -/
def cutNumDotWs (l : List Char) : Option (List Char) :=
  let ds := l.takeWhile Char.isDigit
  if ds.isEmpty then none
  else
    match l.drop ds.length with
    | '.' :: r2 =>
      match r2 with
      | c :: _ => if jsIsSpace c then some (r2.dropWhile jsIsSpace) else none
      | [] => none
    | _ => none

/-- The separator `/\n\n+/`: two or more newlines (consumed greedily). -/
def cutDoubleNewline : List Char → Option (List Char)
  | '\n' :: '\n' :: rest => some (rest.dropWhile (fun c => c == '\n'))
  | _ => none

/-- The separator regex of the architecture section (a dash followed by a
space): the literal `"- "`. -/
def cutDashSpace : List Char → Option (List Char)
  | '-' :: ' ' :: rest => some rest
  | _ => none

/-- JavaScript `content.substring(0, n)`. -/
def jsSubstringTo (s : String) (n : Nat) : String :=
  String.mk (s.toList.take n)

/-- JavaScript `String.prototype.indexOf` for a single character that is
known to occur. -/
def jsIndexOfChar (c : Char) (s : String) : Nat :=
  (s.toList.takeWhile (fun x => !(x == c))).length

/-- JavaScript `bullet.replace(/\n/g, " ")`. -/
def jsNewlinesToSpaces (s : String) : String :=
  String.mk (s.toList.map (fun c => if c == '\n' then ' ' else c))

/-! ### The heading detector (ai-summary-service.ts 1218-1305)

Each heading test is the regex `^#+\s*\d*\.?\s*(alt₁|alt₂|…)/i` where every
alternative is a sequence of literal words separated by `\s*`.  None of the
alternatives begins with `#`, a whitespace character, a digit or a dot, so
the greedy reading implemented here coincides with the regex. -/

/-- Match a sequence of literal words separated by `\s*` at the head of the
(already lower-cased) character list; the rest of the line is
unconstrained. -/
def matchWords : List String → List Char → Bool
  | [], _ => true
  | w :: ws, cs =>
    charsPrefix w.toList cs
      && matchWords ws ((cs.drop w.length).dropWhile jsIsSpace)

/-- Consume the heading prelude `^#+\s*\d*\.?\s*`; `none` when the line does
not begin with `#`. -/
def matchHeadingPrefix (cs : List Char) : Option (List Char) :=
  if (cs.takeWhile (fun c => c == '#')).isEmpty then none
  else
    let rest := ((cs.dropWhile (fun c => c == '#')).dropWhile jsIsSpace).dropWhile
      Char.isDigit
    let rest := match rest with
      | '.' :: r => r
      | r => r
    some (rest.dropWhile jsIsSpace)

/-- `line.match(/^#+\s*\d*\.?\s*(…)/i)` as a boolean, with the alternatives
given as lower-cased word sequences. -/
def matchesHeading (alts : List (List String)) (line : String) : Bool :=
  match matchHeadingPrefix (jsToLower line).toList with
  | none => false
  | some rest => alts.any (fun alt => matchWords alt rest)

/-- The six section states of the parsing loop. -/
inductive SectionKind where
  | project_intro | tech_stack | architecture | refactoring_history
  | collaboration_flow | resume_bullets
deriving Repr, DecidableEq

/-- The `currentSection` string assigned for each heading kind. -/
def sectionName : SectionKind → String
  | .project_intro => "project_intro"
  | .tech_stack => "tech_stack"
  | .architecture => "architecture"
  | .refactoring_history => "refactoring_history"
  | .collaboration_flow => "collaboration_flow"
  | .resume_bullets => "resume_bullets"

/-- The else-if chain of heading tests (ai-summary-service.ts 1220-1305), in
source order. -/
def headingOf (line : String) : Option SectionKind :=
  if matchesHeading [["프로젝트", "소개"], ["project", "introduction"]] line then
    some .project_intro
  else if matchesHeading [["기술", "스택"], ["tech", "stack"],
      ["technology", "stack"]] line then
    some .tech_stack
  else if matchesHeading [["프로젝트", "아키텍처"], ["project", "architecture"],
      ["architecture"]] line then
    some .architecture
  else if matchesHeading [["개발", "과정"], ["리팩토링"],
      ["development", "process"], ["refactoring"]] line then
    some .refactoring_history
  else if matchesHeading [["협업"], ["개발", "프로세스"], ["collaboration"],
      ["development", "flow"]] line then
    some .collaboration_flow
  else if matchesHeading [["이력서"], ["성과"], ["resume"], ["achievement"],
      ["impact"]] line then
    some .resume_bullets
  else none

/-! ### `processSection` (ai-summary-service.ts 1423-1663) -/

/-- The resume-bullet split of the section text into candidate bullet
strings (ai-summary-service.ts 1564-1615): four tiers tried in order —
bullet glyphs, numbered list, blank-line paragraphs, sentence pairs — and,
when all yield nothing, fixed-size word chunks. -/
def resumeBulletStrings (cleanContent : String) : List String :=
  let bullets : List String :=
    if existsCut cutBulletWs cleanContent.toList then
      ((jsSplitByCutter cutBulletWs cleanContent).map jsTrim).filter
        (fun bullet => bullet.length > 15)
    else if existsCut cutNumDotWs cleanContent.toList then
      ((jsSplitByCutter cutNumDotWs cleanContent).map jsTrim).filter
        (fun bullet => bullet.length > 15)
    else if jsIncludes cleanContent "\n\n" then
      ((jsSplitByCutter cutDoubleNewline cleanContent).map
        (fun bullet => jsNewlinesToSpaces (jsTrim bullet))).filter
        (fun bullet => bullet.length > 15)
    else
      let sentences := ((jsSplitOnPred
          (fun c => c == '.' || c == '!' || c == '?') cleanContent).map
          jsTrim).filter (fun s => s.length > 10)
      groupSentencePairs sentences
  if bullets.isEmpty then
    let words := jsSplitOnChar ' ' cleanContent
    let chunkSize := (words.length + 2) / 3
    chunkWordsAux (words.length + 1) chunkSize words
  else bullets
where
  /-- The `for (i += 2) … slice(i, i + 2).join(". ")` grouping loop
  (ai-summary-service.ts 1594-1601). -/
  groupSentencePairs : List String → List String
    | [] => []
    | [s] => if s.length > 15 then [s] else []
    | s1 :: s2 :: rest =>
      let group := s1 ++ ". " ++ s2
      if group.length > 15 then group :: groupSentencePairs rest
      else groupSentencePairs rest
  /-- The `for (i += chunkSize) … slice(i, i + chunkSize).join(" ")` loop
  (ai-summary-service.ts 1606-1615); `chunkSize = ⌈words.length / 3⌉ ≥ 1`
  whenever `words` is non-empty, so the fuel is never exhausted. -/
  chunkWordsAux : Nat → Nat → List String → List String
    | 0, _, _ => []
    | _ + 1, _, [] => []
    | fuel + 1, chunkSize, ws =>
      let chunk := String.intercalate " " (ws.take chunkSize)
      let rest := ws.drop chunkSize
      if (jsTrim chunk).length > 15 then
        jsTrim chunk :: chunkWordsAux fuel chunkSize rest
      else chunkWordsAux fuel chunkSize rest

/-- The bullet-to-`{title, content}` mapping (ai-summary-service.ts
1620-1650).  `bullet.indexOf(":") < bullet.length * 0.6` is modelled as the
exact rational comparison `index · 5 < length · 3`, which agrees with the
IEEE-double comparison of the source for all realistic lengths. -/
def resumeBulletOf (index : Nat) (bullet : String) : ResumeBullet :=
  if jsIncludes bullet ":" && decide (jsIndexOfChar ':' bullet * 5 < bullet.length * 3) then
    let colonIndex := jsIndexOfChar ':' bullet
    let title := jsTrim (String.mk (bullet.toList.take colonIndex))
    let content := jsTrim (String.mk (bullet.toList.drop (colonIndex + 1)))
    { title := if title != "" then title else "성과 " ++ toString (index + 1),
      content := if content != "" then content else bullet }
  else
    let words := jsSplitOnChar ' ' bullet
    let titleWords := words.take (min 8 ((3 * words.length + 9) / 10))
    let contentWords := words.drop titleWords.length
    let title := String.intercalate " " titleWords
    let content := if contentWords.length > 0 then
        String.intercalate " " contentWords
      else bullet
    { title := if title.length > 3 then title else "성과 " ++ toString (index + 1),
      content := content }

/-- `processSection` (ai-summary-service.ts 1423-1663): the per-field switch. -/
def processSection (sectionType : String) (content : String)
    (summary : RepositorySummary) (detectedTechStack : Option TechStackProfile) :
    RepositorySummary :=
  let cleanContent := jsTrim content
  if sectionType == "project_intro" then
    { summary with project_intro := cleanContent }
  else if sectionType == "tech_stack" then
    match detectedTechStack with
    | some d =>
      { summary with tech_stack :=
        { frontend := if d.frontend.length > 0 then d.frontend else [],
          backend := if d.backend.length > 0 then d.backend else [],
          database := if d.database.length > 0 then d.database else [],
          devops := if d.devops.length > 0 then d.devops else [],
          testing := if d.testing.length > 0 then d.testing else [],
          other := [] } }
    | none =>
      let techLines := ((jsSplitOnPred (fun c => c == ',' || c == '\n')
        cleanContent).map jsTrim).filter (fun line => line.length > 0)
      { summary with tech_stack :=
        { frontend := techLines.filter (fun tech =>
            jsIncludes (jsToLower tech) "react" || jsIncludes (jsToLower tech) "vue"
            || jsIncludes (jsToLower tech) "angular"
            || jsIncludes (jsToLower tech) "frontend"
            || jsIncludes (jsToLower tech) "프론트"),
          backend := techLines.filter (fun tech =>
            jsIncludes (jsToLower tech) "node" || jsIncludes (jsToLower tech) "express"
            || jsIncludes (jsToLower tech) "django"
            || jsIncludes (jsToLower tech) "backend"
            || jsIncludes (jsToLower tech) "백엔드"),
          database := techLines.filter (fun tech =>
            jsIncludes (jsToLower tech) "mysql" || jsIncludes (jsToLower tech) "postgres"
            || jsIncludes (jsToLower tech) "mongodb"
            || jsIncludes (jsToLower tech) "database"
            || jsIncludes (jsToLower tech) "데이터베이스"),
          devops := techLines.filter (fun tech =>
            jsIncludes (jsToLower tech) "docker" || jsIncludes (jsToLower tech) "kubernetes"
            || jsIncludes (jsToLower tech) "aws"
            || jsIncludes (jsToLower tech) "devops"
            || jsIncludes (jsToLower tech) "배포"),
          testing := techLines.filter (fun tech =>
            jsIncludes (jsToLower tech) "jest" || jsIncludes (jsToLower tech) "cypress"
            || jsIncludes (jsToLower tech) "test"
            || jsIncludes (jsToLower tech) "테스트"),
          other := techLines.filter (fun tech =>
            !(jsIncludes (jsToLower tech) "react") && !(jsIncludes (jsToLower tech) "node")
            && !(jsIncludes (jsToLower tech) "mysql")
            && !(jsIncludes (jsToLower tech) "docker")
            && !(jsIncludes (jsToLower tech) "jest")
            && !(jsIncludes (jsToLower tech) "frontend")
            && !(jsIncludes (jsToLower tech) "backend")
            && !(jsIncludes (jsToLower tech) "database")
            && !(jsIncludes (jsToLower tech) "devops")
            && !(jsIncludes (jsToLower tech) "test")) } }
  else if sectionType == "architecture" then
    let architectureContent := cleanContent
    let other := summary.tech_stack.other
    let items :=
      if jsIncludes architectureContent "- " then
        ((jsSplitByCutter cutDashSpace architectureContent).map jsTrim).filter
          (fun item => item.length > 0)
      else if jsIncludes architectureContent "\n" then
        ((jsSplitOnChar '\n' architectureContent).map jsTrim).filter
          (fun item => item.length > 0)
      else [architectureContent]
    { summary with tech_stack := { summary.tech_stack with other := other ++ items } }
  else if sectionType == "refactoring_history" then
    { summary with refactoring_history := cleanContent }
  else if sectionType == "collaboration_flow" then
    { summary with collaboration_flow := cleanContent }
  else if sectionType == "resume_bullets" then
    let bullets := (resumeBulletStrings cleanContent).take 6
    let resume_bullets := bullets.enum.map (fun p => resumeBulletOf p.fst p.snd)
    if resume_bullets.length == 0 then
      { summary with resume_bullets :=
        [{ title := "프로젝트 완료",
           content := if cleanContent != "" then cleanContent
             else "프로젝트 분석이 완료되었습니다." }] }
    else { summary with resume_bullets := resume_bullets }
  else summary

/-! ### The parsing loop and its fallback (ai-summary-service.ts 1193-1363) -/

/-- The summary object created before parsing (ai-summary-service.ts
1193-1207). -/
def initialSummary : RepositorySummary :=
  { branch_name := "main", project_intro := "",
    tech_stack := { frontend := [], backend := [], database := [],
                    devops := [], testing := [], other := [] },
    refactoring_history := "", collaboration_flow := "", resume_bullets := [] }

/-- `content.split("\n").map(trim).filter(length > 0)` (ai-summary-service.ts
1211-1214). -/
def procLines (content : String) : List String :=
  ((jsSplitOnChar '\n' content).map jsTrim).filter (fun line => line.length > 0)

/-- One iteration of the `for (const line of lines)` loop
(ai-summary-service.ts 1218-1310): a heading flushes the accumulated text
into the previously active section and switches state; a non-heading,
non-`#` line accumulates while a section is active. -/
def parseStep (detected : TechStackProfile)
    (st : String × List String × RepositorySummary) (line : String) :
    String × List String × RepositorySummary :=
  match headingOf line with
  | some k =>
    let summary := if st.fst != "" && st.snd.fst.length > 0 then
        processSection st.fst (String.intercalate " " st.snd.fst) st.snd.snd
          (some detected)
      else st.snd.snd
    (sectionName k, [], summary)
  | none =>
    if st.fst != "" && !(jsStartsWith line "#") then
      (st.fst, st.snd.fst ++ [line], st.snd.snd)
    else st

/-- The loop over all lines plus the final flush (ai-summary-service.ts
1218-1320). -/
def parsedBeforeFallback (content : String) (detected : TechStackProfile) :
    RepositorySummary :=
  let st := (procLines content).foldl (parseStep detected) ("", [], initialSummary)
  if st.fst != "" && st.snd.fst.length > 0 then
    processSection st.fst (String.intercalate " " st.snd.fst) st.snd.snd
      (some detected)
  else st.snd.snd

/-- The parse-failure defaults (ai-summary-service.ts 1328-1362). -/
def fallbackSummary (content : String) (detected : TechStackProfile)
    (summary : RepositorySummary) : RepositorySummary :=
  { summary with
    project_intro := jsSubstringTo content 1000,
    tech_stack :=
      { frontend := if detected.frontend.length > 0 then detected.frontend else [],
        backend := if detected.backend.length > 0 then detected.backend else [],
        database := if detected.database.length > 0 then detected.database else [],
        devops := if detected.devops.length > 0 then detected.devops else [],
        testing := if detected.testing.length > 0 then detected.testing else [],
        other := if detected.detected.length > 0 then
            [String.intercalate ", " detected.detected]
          else ["분석된 기술 스택 없음"] },
    refactoring_history := "AI 응답 파싱 실패로 인한 기본 내용",
    collaboration_flow := "AI 응답 파싱 실패로 인한 기본 내용",
    resume_bullets := [{ title := "프로젝트 분석 완료",
                         content := "프로젝트 기본 분석이 완료되었습니다." }] }

/-- The section extraction of `generateEnhancedRepositorySummary` applied to
a non-empty AI response text (ai-summary-service.ts 1209-1363): the
line-by-line parse, then the `!project_intro && !tech_stack.frontend?.length
&& !refactoring_history` fallback of lines 1323-1363. -/
def parseAiResponse (content : String) (detected : TechStackProfile) :
    RepositorySummary :=
  let summary := parsedBeforeFallback content detected
  if summary.project_intro == "" && summary.tech_stack.frontend.length == 0
      && summary.refactoring_history == "" then
    fallbackSummary content detected summary
  else summary

/-- `if (l.length > 0) then l else []` is the identity. -/
theorem lengthIf (l : List String) :
    (if l.length > 0 then l else ([] : List String)) = l := by
  cases l <;> simp

/-- Claim C3: when a deterministically detected profile is supplied,
`processSection` on the tech-stack section writes exactly the detected
profile's five category lists and an empty `other`, for any model text and
any prior summary; hence any two AI response texts yield identical category
lists, and the model's tech-stack text does not survive at all (a fortiori
at most as an `other` note). -/
theorem processSection_techStack_determined (c1 c2 : String)
    (s1 s2 : RepositorySummary) (d : TechStackProfile) :
    (processSection "tech_stack" c1 s1 (some d)).tech_stack =
      { frontend := d.frontend, backend := d.backend, database := d.database,
        devops := d.devops, testing := d.testing, other := [] }
    ∧ (processSection "tech_stack" c1 s1 (some d)).tech_stack =
      (processSection "tech_stack" c2 s2 (some d)).tech_stack := by
  have hproc : ∀ (c : String) (s : RepositorySummary),
      (processSection "tech_stack" c s (some d)).tech_stack =
        { frontend := d.frontend, backend := d.backend, database := d.database,
          devops := d.devops, testing := d.testing, other := [] } := by
    intro c s
    simp [processSection, lengthIf]
  exact ⟨hproc c1 s1, by rw [hproc c1 s1, hproc c2 s2]⟩

/-- A non-empty text keeps its first 1000 characters non-empty. -/
theorem jsSubstringTo_ne {content : String} (h : content ≠ "") :
    jsSubstringTo content 1000 ≠ "" := by
  intro he
  apply h
  have hl : content.toList.take 1000 = [] := by
    have := congrArg String.toList he
    simpa [jsSubstringTo] using this
  rcases List.take_eq_nil_iff.mp hl with h0 | h0
  · cases h0
  · cases content with
    | mk data => simpa using congrArg String.mk h0

/-- While no heading has been seen, a non-heading line leaves the loop state
unchanged. -/
theorem parseStep_idle (d : TechStackProfile) (line : String)
    (s : RepositorySummary) (h : headingOf line = none) :
    parseStep d ("", [], s) line = ("", [], s) := by
  simp [parseStep, h]

/-- With no recognizable heading anywhere, the whole loop leaves the state
untouched. -/
theorem foldl_idle (d : TechStackProfile) (lines : List String)
    (h : ∀ l ∈ lines, headingOf l = none) (s : RepositorySummary) :
    lines.foldl (parseStep d) ("", [], s) = ("", [], s) := by
  induction lines with
  | nil => rfl
  | cons line rest ih =>
    rw [List.foldl_cons, parseStep_idle d line s (h line (List.mem_cons_self _ _))]
    exact ih (fun l hl => h l (List.mem_cons_of_mem _ hl))

/-- Claim C1 (amended): for every non-empty AI response text the extraction
returns a draft in which at least one of `project_intro`,
`tech_stack.frontend` and `refactoring_history` is non-empty (so at least
one field is populated); and whenever no line carries a recognizable
heading, the fallback of lines 1323-1363 fires, so the draft additionally
has a non-empty `resume_bullets` and a non-empty `project_intro`.  (The
resume-bullet guarantee does not extend to every non-empty text — see the
counterexample.) -/
theorem parseAiResponse_populated (content : String) (detected : TechStackProfile)
    (h : content ≠ "") :
    ((parseAiResponse content detected).project_intro ≠ ""
      ∨ (parseAiResponse content detected).tech_stack.frontend ≠ []
      ∨ (parseAiResponse content detected).refactoring_history ≠ "")
    ∧ ((∀ line ∈ procLines content, headingOf line = none) →
      (parseAiResponse content detected).resume_bullets ≠ []
        ∧ (parseAiResponse content detected).project_intro ≠ "") := by
  constructor
  · unfold parseAiResponse
    by_cases hc : ((parsedBeforeFallback content detected).project_intro == ""
        && (parsedBeforeFallback content detected).tech_stack.frontend.length == 0
        && (parsedBeforeFallback content detected).refactoring_history == "") = true
    · rw [if_pos hc]
      exact Or.inl (jsSubstringTo_ne h)
    · rw [if_neg hc]
      simp only [Bool.and_eq_true, beq_iff_eq, not_and_or] at hc
      rcases hc with (hc | hc) | hc
      · exact Or.inl hc
      · refine Or.inr (Or.inl ?_)
        intro he
        exact hc (by rw [he]; rfl)
      · exact Or.inr (Or.inr hc)
  · intro hnone
    have hfold := foldl_idle detected (procLines content) hnone initialSummary
    have hs0 : parsedBeforeFallback content detected = initialSummary := by
      unfold parsedBeforeFallback
      rw [hfold]
      rfl
    have hres : parseAiResponse content detected =
        fallbackSummary content detected initialSummary := by
      unfold parseAiResponse
      rw [hs0]
      rfl
    rw [hres]
    exact ⟨by simp [fallbackSummary], jsSubstringTo_ne h⟩

/-- Witness for C1: the amended theorem applied at a non-empty text with no
recognizable heading. -/
theorem parseAiResponse_populated_witness :
    ("plain model text with no headings" ≠ ""
      ∧ ∀ line ∈ procLines "plain model text with no headings",
          headingOf line = none)
    ∧ ((parseAiResponse "plain model text with no headings" emptyTechStack).resume_bullets ≠ []
      ∧ (parseAiResponse "plain model text with no headings" emptyTechStack).project_intro ≠ "") :=
  ⟨⟨by decide, by decide⟩,
   (parseAiResponse_populated "plain model text with no headings" emptyTechStack
     (by decide)).2 (by decide)⟩

/-- The response text of the C1 counterexample: a recognized project-intro
heading followed by intro text. -/
def c1Text : String :=
  "## 프로젝트 소개\nThis is a small demo project."

/-- Counterexample to claim C1 as stated: on this non-empty response the
extraction fills `project_intro` (so the fallback of lines 1323-1363 does
not fire) and returns an *empty* `resume_bullets` — not every non-empty
response yields at least one resume bullet. -/
theorem parseAiResponse_counterexample :
    c1Text ≠ ""
    ∧ (parseAiResponse c1Text emptyTechStack).project_intro =
      "This is a small demo project."
    ∧ (parseAiResponse c1Text emptyTechStack).resume_bullets = [] := by
  refine ⟨by decide, ?_, ?_⟩ <;> rfl

end PortfolioBackend
